import Mathlib

/-!
# skywire-mainnet: app client, app2 listener, app server, hypervisor key

A shallow embedding of

* `pkg/hypervisor/config.go`   (`Key`, its hex text form),
* `pkg/app/client.go`          (`ClientConfigFromEnv`, `Client.Dial`, `Client.Listen`, `Client.Close`),
* `pkg/app2/listener.go`       (`Listener.Accept`, `Listener.Close`, `Listener.Addr`),
* `pkg/app/appserver/server.go` (`Server.Close`, `Server.serveConn`),

followed by the theorems about them.

Conventions.

* Go byte and `uint16` values are natural numbers.  A Go result pair `(value, error)` is a
  Lean pair whose second component is `Option Error` (`none` is `nil`).
* Pointers are indices into the object lists of a `Heap`; a new object gets the next index.
  A function returns `none` when the Go code does not return: it dereferences a pointer that
  points to no object, panics, or waits for ever.
* The state is a `World`: the heap and the list of the events so far (calls of the control
  protocol, calls of `Close`, calls of release closures, logged errors).
* What the sources do not contain is an `Env`: the replies of the control protocol, and the
  `Close` of a connection or of a listener reached through `net.Conn` and `net.Listener`,
  each with an arbitrary result that may depend on the whole state.  The registry
  (`idmanager`) is modelled from the specification.
* The functions are followed along one thread of control.  A mutex operation that has to
  wait (`Lock` while the mutex is held, `RLock` while a writer holds it) does not return in
  one thread of control, and neither does its caller: the result is `none`.  `DialSteps`,
  `ListenSteps` and `AcceptSteps` also give every state passed through, one per statement:
  these are the states another thread can observe.
-/

namespace Skywire

/-! ## Go standard library: `encoding/hex` -/

/-- The errors of `encoding/hex`: `ErrLength` and `InvalidByteError`. -/
inductive HexError where
  | errLength
  | invalidByte (b : Nat)
  deriving DecidableEq, Repr

/-- The constant `hextable = "0123456789abcdef"` of `encoding/hex`, as bytes. -/
def hextable : List Nat :=
  [48, 49, 50, 51, 52, 53, 54, 55, 56, 57, 97, 98, 99, 100, 101, 102]

/-- Go `hex.EncodedLen`. -/
def hexEncodedLen (n : Nat) : Nat := n * 2

/-- Go `hex.DecodedLen`. -/
def hexDecodedLen (x : Nat) : Nat := x / 2

/-- Go `hex.Encode`, returning the bytes written: for each source byte `v` the two characters
`hextable[v>>4]` and `hextable[v&0x0f]`. -/
def hexEncode : List Nat → List Nat
  | [] => []
  | v :: rest => hextable.getD (v >>> 4) 0 :: hextable.getD (v &&& 0x0f) 0 :: hexEncode rest

/-- Go `hex.EncodeToString` (a Go string is its byte sequence). -/
def hexEncodeToString (src : List Nat) : List Nat := hexEncode src

/-- Go `hex.fromHexChar`: the value of a hex digit, `none` when the byte is not one. -/
def fromHexChar (c : Nat) : Option Nat :=
  if 48 ≤ c ∧ c ≤ 57 then some (c - 48)
  else if 97 ≤ c ∧ c ≤ 102 then some (c - 97 + 10)
  else if 65 ≤ c ∧ c ≤ 70 then some (c - 65 + 10)
  else none

/-- The loop of `hex.Decode`: the bytes written to the destination, in order, and the error.
An invalid character is reported before a bad length. -/
def hexDecodeLoop : List Nat → List Nat × Option HexError
  | [] => ([], none)
  | [a] =>
    match fromHexChar a with
    | none => ([], some (HexError.invalidByte a))
    | some _ => ([], some HexError.errLength)
  | a :: b :: rest =>
    match fromHexChar a with
    | none => ([], some (HexError.invalidByte a))
    | some x =>
      match fromHexChar b with
      | none => ([], some (HexError.invalidByte b))
      | some y =>
        let r := hexDecodeLoop rest
        ((((x <<< 4) % 256) ||| y) :: r.1, r.2)

/-- Go `hex.Decode dst src`: the destination after the call, the number of bytes written and
the error.  The bytes of `dst` beyond those written are left as they were. -/
def hexDecode (dst src : List Nat) : List Nat × Nat × Option HexError :=
  let r := hexDecodeLoop src
  (r.1 ++ dst.drop r.1.length, r.1.length, r.2)

/-! ## `pkg/hypervisor/config.go`: `Key` -/

/-- Go `type Key []byte`. -/
abbrev Key := List Nat

/-- Go `func (hk Key) String() string`. -/
def Key.String (hk : Key) : List Nat := hexEncodeToString hk

/-- Go `func (hk Key) MarshalText() ([]byte, error)`. -/
def Key.MarshalText (hk : Key) : List Nat × Option HexError := (Key.String hk, none)

/-- Go `func (hk *Key) UnmarshalText(text []byte) error`: the key after the call and the error.
The key is first replaced by `make([]byte, hex.DecodedLen(len(text)))`, then decoded into. -/
def Key.UnmarshalText (text : List Nat) : Key × Option HexError :=
  let hk : Key := List.replicate (hexDecodedLen text.length) 0
  let r := hexDecode hk text
  (r.1, r.2.2)

/-! ## `pkg/app/client.go`: configuration -/

/-- The error values met in the embedded code.  The first four are the package variables of
`pkg/app/client.go`; `valueAlreadyExists` is the error of `idmanager.Manager.Add`,
`wrongValueType` the error of `idmanager.AssertListener` and `idmanager.AssertConn`,
and `other n` stands for any error coming from outside (control protocol, network). -/
inductive Error where
  | ErrVisorPKNotProvided
  | ErrVisorPKInvalid
  | ErrSockFileNotProvided
  | ErrAppKeyNotProvided
  | valueAlreadyExists
  | wrongValueType
  | other (n : Nat)
  deriving DecidableEq, Repr

/-- Go `cipher.PubKey`, a fixed array of 33 bytes, as its list of bytes. -/
abbrev PubKey := List Nat

/-- The zero value of `cipher.PubKey`. -/
def PubKey.zero : PubKey := List.replicate 33 0

/-- Go `type ClientConfig struct`. -/
structure ClientConfig where
  VisorPK : PubKey
  SockFile : String
  AppKey : String
  deriving DecidableEq, Repr

/-- The zero value `ClientConfig{}`. -/
def ClientConfig.zero : ClientConfig := ⟨PubKey.zero, "", ""⟩

/-- The names of the environment variables, constants of package `appcommon`. -/
structure EnvNames where
  EnvAppKey : String
  EnvSockFile : String
  EnvVisorPK : String

/-- Go `func ClientConfigFromEnv() (ClientConfig, error)`.  `getenv` is `os.Getenv` (the empty
string for an unset variable); `unmarshalText` is `cipher.PubKey.UnmarshalText` of the
dmsg library, `none` when it returns an error. -/
def ClientConfigFromEnv (names : EnvNames) (getenv : String → String)
    (unmarshalText : String → Option PubKey) : ClientConfig × Option Error :=
  let appKey := getenv names.EnvAppKey
  if appKey = "" then (ClientConfig.zero, some Error.ErrAppKeyNotProvided)
  else
    let sockFile := getenv names.EnvSockFile
    if sockFile = "" then (ClientConfig.zero, some Error.ErrSockFileNotProvided)
    else
      let visorPKStr := getenv names.EnvVisorPK
      if visorPKStr = "" then (ClientConfig.zero, some Error.ErrVisorPKNotProvided)
      else
        match unmarshalText visorPKStr with
        | none => (ClientConfig.zero, some Error.ErrVisorPKInvalid)
        | some visorPK => ({ VisorPK := visorPK, SockFile := sockFile, AppKey := appKey }, none)

/-! ## The objects of packages `app` and `app2` -/

/-- Go `appnet.Addr`: network type, public key, port. -/
structure Addr where
  Net : String
  PubKey : PubKey
  Port : Nat
  deriving DecidableEq, Repr

/-- The state of a `sync.RWMutex`: whether a writer holds it, and the number of readers. -/
structure RWMutex where
  writer : Bool
  readers : Nat
  deriving DecidableEq, Repr

/-- The zero value of `sync.RWMutex`. -/
def RWMutex.zero : RWMutex := ⟨false, 0⟩

/-- Go `RWMutex.Lock`: the mutex with the writer in.  `none` while a writer or a reader holds
the mutex: the caller waits, and in one thread of control nobody releases it. -/
def RWMutex.Lock (m : RWMutex) : Option RWMutex :=
  if m.writer = true ∨ m.readers ≠ 0 then none else some { m with writer := true }

/-- Go `RWMutex.Unlock`: the mutex with the writer out.  `none` when no writer holds the mutex
(a fatal error of the runtime). -/
def RWMutex.Unlock (m : RWMutex) : Option RWMutex :=
  if m.writer = true then some { m with writer := false } else none

/-- Go `RWMutex.RLock`: the mutex with one more reader.  `none` while a writer holds the
mutex: the caller waits. -/
def RWMutex.RLock (m : RWMutex) : Option RWMutex :=
  if m.writer = true then none else some { m with readers := m.readers + 1 }

/-- Go `RWMutex.RUnlock`: the mutex with one reader less.  `none` when no reader holds the
mutex (a fatal error of the runtime). -/
def RWMutex.RUnlock (m : RWMutex) : Option RWMutex :=
  if m.readers = 0 then none else some { m with readers := m.readers - 1 }

/-- Modelled from the spec: the release closure returned by `idmanager.Manager.Add`, which is
not among the sources.  It is bound to one manager and one handle; calling it removes the
entry. -/
structure Free where
  mgr : Nat
  id : Nat
  deriving DecidableEq, Repr

/-- A value stored in a manager (`interface{}`): a `*Conn`, a `*Listener`, or a value that is
neither a `net.Conn` nor a `net.Listener`. -/
inductive Value where
  | conn (ref : Nat)
  | listener (ref : Nat)
  | other (tag : Nat)
  deriving DecidableEq, Repr

/-- Modelled from the spec: `idmanager.Manager`, which is not among the sources: the entries
(handle, value), in the order in which `DoRange` visits them. -/
abbrev Manager := List (Nat × Value)

/-- Go `type Conn struct` (its declaration is not among the sources; the fields are those set
and used by `Client.Dial` and `Listener.Accept`; `loc` is the field `local`).  `rpc` names the
control-protocol client. -/
structure Conn where
  id : Nat
  rpc : Nat
  loc : Addr
  remote : Addr
  freeConn : Option Free
  freeConnMx : RWMutex
  deriving DecidableEq, Repr

/-- Go `type Listener struct` of `pkg/app2/listener.go`, without the logger.  `cm` points to the
manager of the connections the listener has accepted. -/
structure Listener where
  id : Nat
  rpc : Nat
  addr : Addr
  cm : Nat
  freeLis : Option Free
  freeLisMx : RWMutex
  deriving DecidableEq, Repr

/-- Go `type Client struct` of `pkg/app/client.go`, without the logger.  `lm` and `cm` point to
the manager of listeners and the manager of connections. -/
structure Client where
  visorPK : PubKey
  rpc : Nat
  lm : Nat
  cm : Nat
  deriving DecidableEq, Repr

/-- The objects reachable through pointers. -/
structure Heap where
  conns : List Conn
  listeners : List Listener
  managers : List Manager
  deriving DecidableEq, Repr

/-- What the embedded functions do to the outside, in order: a call of the control protocol,
a call of `Close` on a connection or on a listener, a call of a release closure, a logged
error. -/
inductive Event where
  | rpcDial (rpc : Nat) (remote : Addr)
  | rpcListen (rpc : Nat) (loc : Addr)
  | rpcAccept (rpc : Nat) (lisID : Nat)
  | rpcCloseListener (rpc : Nat) (lisID : Nat)
  | connClose (conn : Nat)
  | listenerClose (lis : Nat)
  | free (f : Free)
  | logError (err : Error)
  deriving DecidableEq, Repr

/-- The state: the heap and the events so far. -/
structure World where
  heap : Heap
  trace : List Event
  deriving DecidableEq, Repr

/-- What lies outside the sources.  The replies of the control protocol (`RPCClient`) may
depend on everything that happened before.  `connClose` is `Close` of a connection and
`listenerClose` is `Close` of a listener of package `app`: each gives the error returned and
the release closures the call invokes. -/
structure Env where
  rpcDial : World → Nat → Addr → (Nat × Nat) × Option Error
  rpcListen : World → Nat → Addr → Nat × Option Error
  rpcAccept : World → Nat → Nat → (Nat × Addr) × Option Error
  rpcCloseListener : World → Nat → Nat → Option Error
  connClose : World → Nat → Option Error × List Free
  listenerClose : World → Nat → Option Error × List Free

/-- Append an event. -/
def World.emit (w : World) (e : Event) : World := { w with trace := w.trace ++ [e] }

/-- Modelled from the spec: calling a release closure removes the entry of its handle from
its manager; a second call finds nothing to remove. -/
def Free.call (f : Free) (h : Heap) : Heap :=
  match h.managers[f.mgr]? with
  | none => h
  | some m => { h with managers := h.managers.set f.mgr (m.filter (fun e => e.1 != f.id)) }

/-- Replace the contents of the manager at `m`. -/
def World.setManager (w : World) (m : Nat) (mgr : Manager) : World :=
  { w with heap := { w.heap with managers := w.heap.managers.set m mgr } }

/-- Call release closures one after the other. -/
def World.callFrees (w : World) (fs : List Free) : World :=
  { w with heap := fs.foldl (fun h f => f.call h) w.heap }

/-- Modelled from the spec: `idmanager.Manager.Get`. -/
def Manager.Get (m : Manager) (id : Nat) : Option Value := m.lookup id

/-- Modelled from the spec: `idmanager.Manager.Add` on the manager at `m`: the error
`valueAlreadyExists` and no change when the handle is present, else the entry is added and
the release closure for it returned.  `none` when `m` points to no manager. -/
def World.managerAdd (w : World) (m : Nat) (id : Nat) (v : Value) :
    Option (World × Option Free × Option Error) :=
  match w.heap.managers[m]? with
  | none => none
  | some mgr =>
    match Manager.Get mgr id with
    | some _ => some (w, none, some Error.valueAlreadyExists)
    | none =>
      some (w.setManager m (mgr ++ [(id, v)]), some ⟨m, id⟩, none)

/-- Modelled from the spec: `idmanager.Manager.DoRange`: visit the entries until the callback
returns `false`. -/
def Manager.DoRange {σ : Type} (next : Nat → Value → σ → σ × Bool) : Manager → σ → σ
  | [], s => s
  | (id, v) :: rest, s =>
    match next id v s with
    | (s', true) => Manager.DoRange next rest s'
    | (s', false) => s'

/-- Modelled from the spec: `idmanager.AssertListener`: the value as a `net.Listener`. -/
def AssertListener (v : Value) : Option Nat × Option Error :=
  match v with
  | Value.listener ref => (some ref, none)
  | _ => (none, some Error.wrongValueType)

/-- Modelled from the spec: `idmanager.AssertConn`: the value as a `net.Conn`. -/
def AssertConn (v : Value) : Option Nat × Option Error :=
  match v with
  | Value.conn ref => (some ref, none)
  | _ => (none, some Error.wrongValueType)

/-- Allocate a connection object; its pointer is the old length of the list. -/
def World.newConn (w : World) (c : Conn) : World :=
  { w with heap := { w.heap with conns := w.heap.conns ++ [c] } }

/-- Allocate a listener object. -/
def World.newListener (w : World) (l : Listener) : World :=
  { w with heap := { w.heap with listeners := w.heap.listeners ++ [l] } }

/-- Allocate an empty manager: `idmanager.New()`. -/
def World.newManager (w : World) : World :=
  { w with heap := { w.heap with managers := w.heap.managers ++ [[]] } }

/-- Update the connection object at `ref`. -/
def World.modifyConn (w : World) (ref : Nat) (f : Conn → Conn) : World :=
  match w.heap.conns[ref]? with
  | none => w
  | some c => { w with heap := { w.heap with conns := w.heap.conns.set ref (f c) } }

/-- Update the listener object at `ref`. -/
def World.modifyListener (w : World) (ref : Nat) (f : Listener → Listener) : World :=
  match w.heap.listeners[ref]? with
  | none => w
  | some l => { w with heap := { w.heap with listeners := w.heap.listeners.set ref (f l) } }

/-- An operation on the mutex `freeConnMx` of the connection at `ref`.  `none` when the
operation does not return or `ref` points to no connection. -/
def World.connMx (w : World) (ref : Nat) (op : RWMutex → Option RWMutex) : Option World :=
  match w.heap.conns[ref]? with
  | none => none
  | some c =>
    match op c.freeConnMx with
    | none => none
    | some m => some (w.modifyConn ref (fun x => { x with freeConnMx := m }))

/-- An operation on the mutex `freeLisMx` of the listener at `ref`.  `none` when the
operation does not return or `ref` points to no listener. -/
def World.listenerMx (w : World) (ref : Nat) (op : RWMutex → Option RWMutex) : Option World :=
  match w.heap.listeners[ref]? with
  | none => none
  | some l =>
    match op l.freeLisMx with
    | none => none
    | some m => some (w.modifyListener ref (fun x => { x with freeLisMx := m }))

/-- A call `conn.Close()` on a connection: the event, then the release closures it invokes. -/
def netConnClose (env : Env) (conn : Nat) (w : World) : Option Error × World :=
  let r := env.connClose w conn
  (r.1, (w.emit (Event.connClose conn)).callFrees r.2)

/-- A call `lis.Close()` on a listener of package `app` (whose `Close` is not among the
sources; `Listener.Close` below is that of package `app2`): the event, then the release
closures it invokes. -/
def netListenerClose (env : Env) (lis : Nat) (w : World) : Option Error × World :=
  let r := env.listenerClose w lis
  (r.1, (w.emit (Event.listenerClose lis)).callFrees r.2)

/-- The statement `if err := x.Close(); err != nil { log.WithError(err).Error(...) }`. -/
def logIfError (r : Option Error × World) : World :=
  match r.1 with
  | some err => r.2.emit (Event.logError err)
  | none => r.2

/-- The callback given to `DoRange` to collect the listeners: a value that is not a listener
is logged and skipped; the callback always returns `true`.  (The assertion never returns
neither a listener nor an error; the last case is there for totality.) -/
def collectListenerStep (_id : Nat) (v : Value) (s : List Nat × World) :
    (List Nat × World) × Bool :=
  match AssertListener v with
  | (_, some err) => ((s.1, s.2.emit (Event.logError err)), true)
  | (some lis, none) => ((s.1 ++ [lis], s.2), true)
  | (none, none) => (s, true)

/-- The callback given to `DoRange` to collect the connections. -/
def collectConnStep (_id : Nat) (v : Value) (s : List Nat × World) :
    (List Nat × World) × Bool :=
  match AssertConn v with
  | (_, some err) => ((s.1, s.2.emit (Event.logError err)), true)
  | (some conn, none) => ((s.1 ++ [conn], s.2), true)
  | (none, none) => (s, true)

/-- The loop `for _, lis := range listeners { if err := lis.Close(); ... }`. -/
def closeListeners (env : Env) (listeners : List Nat) (w : World) : World :=
  listeners.foldl (fun w lis => logIfError (netListenerClose env lis w)) w

/-- The loop `for _, conn := range conns { if err := conn.Close(); ... }`. -/
def closeConns (env : Env) (conns : List Nat) (w : World) : World :=
  conns.foldl (fun w conn => logIfError (netConnClose env conn w)) w

/-! ## `pkg/app/client.go`: `Client` -/

/-- The result of `Dial`, `Listen` and `Accept`: the pointer returned (`none` is `nil`) and
the error, with the states passed through, one after each statement, in order. -/
abbrev Steps := (Option Nat × Option Error) × List World

/-- Go `func (c *Client) Dial(remote appnet.Addr) (net.Conn, error)`, statement by statement. -/
def Client.DialSteps (env : Env) (c : Client) (remote : Addr) (w : World) : Option Steps :=
  -- connID, localPort, err := c.rpc.Dial(remote)
  let reply := env.rpcDial w c.rpc remote
  let w1 := w.emit (Event.rpcDial c.rpc remote)
  match reply.2 with
  | some err => some ((none, some err), [w1])
  | none =>
    let connID := reply.1.1
    let localPort := reply.1.2
    -- conn := &Conn{...}
    let conn := w1.heap.conns.length
    let w2 := w1.newConn
      { id := connID, rpc := c.rpc, loc := ⟨remote.Net, c.visorPK, localPort⟩,
        remote := remote, freeConn := none, freeConnMx := RWMutex.zero }
    -- conn.freeConnMx.Lock()
    match w2.connMx conn RWMutex.Lock with
    | none => none
    | some w3 =>
      -- free, err := c.cm.Add(connID, conn)
      match w3.managerAdd c.cm connID (Value.conn conn) with
      | none => none
      | some (w4, _, some err) =>
        -- conn.freeConnMx.Unlock()
        match w4.connMx conn RWMutex.Unlock with
        | none => none
        | some w5 =>
          -- if err := conn.Close(); err != nil { log }
          let w6 := logIfError (netConnClose env conn w5)
          some ((none, some err), [w1, w2, w3, w4, w5, w6])
      | some (w4, free, none) =>
        -- conn.freeConn = free
        let w5 := w4.modifyConn conn (fun x => { x with freeConn := free })
        -- conn.freeConnMx.Unlock()
        match w5.connMx conn RWMutex.Unlock with
        | none => none
        | some w6 => some ((some conn, none), [w1, w2, w3, w4, w5, w6])

/-- Go `Client.Dial`: the result and the state at the end. -/
def Client.Dial (env : Env) (c : Client) (remote : Addr) (w : World) :
    Option ((Option Nat × Option Error) × World) :=
  (Client.DialSteps env c remote w).map (fun r => (r.1, r.2.getLastD w))

/-- Go `func (c *Client) Listen(n appnet.Type, port routing.Port) (net.Listener, error)`,
statement by statement. -/
def Client.ListenSteps (env : Env) (c : Client) (n : String) (port : Nat) (w : World) :
    Option Steps :=
  let loc : Addr := ⟨n, c.visorPK, port⟩
  -- lisID, err := c.rpc.Listen(local)
  let reply := env.rpcListen w c.rpc loc
  let w1 := w.emit (Event.rpcListen c.rpc loc)
  match reply.2 with
  | some err => some ((none, some err), [w1])
  | none =>
    let lisID := reply.1
    -- listener := &Listener{..., cm: idmanager.New()}
    let cm := w1.heap.managers.length
    let w2 := w1.newManager
    let listener := w2.heap.listeners.length
    let w3 := w2.newListener
      { id := lisID, rpc := c.rpc, addr := loc, cm := cm, freeLis := none,
        freeLisMx := RWMutex.zero }
    -- listener.freeLisMx.Lock()
    match w3.listenerMx listener RWMutex.Lock with
    | none => none
    | some w4 =>
      -- freeLis, err := c.lm.Add(lisID, listener)
      match w4.managerAdd c.lm lisID (Value.listener listener) with
      | none => none
      | some (w5, _, some err) =>
        -- listener.freeLisMx.Unlock()
        match w5.listenerMx listener RWMutex.Unlock with
        | none => none
        | some w6 =>
          -- if err := listener.Close(); err != nil { log }
          let w7 := logIfError (netListenerClose env listener w6)
          some ((none, some err), [w1, w2, w3, w4, w5, w6, w7])
      | some (w5, freeLis, none) =>
        -- listener.freeLis = freeLis
        let w6 := w5.modifyListener listener (fun x => { x with freeLis := freeLis })
        -- listener.freeLisMx.Unlock()
        match w6.listenerMx listener RWMutex.Unlock with
        | none => none
        | some w7 => some ((some listener, none), [w1, w2, w3, w4, w5, w6, w7])

/-- Go `Client.Listen`: the result and the state at the end. -/
def Client.Listen (env : Env) (c : Client) (n : String) (port : Nat) (w : World) :
    Option ((Option Nat × Option Error) × World) :=
  (Client.ListenSteps env c n port w).map (fun r => (r.1, r.2.getLastD w))

/-- Go `func (c *Client) Close()`: collect the listeners, collect the connections, close the
listeners, close the connections.  The values collected are `net.Listener` and `net.Conn`
interface values, and `Close` on them is a call to the outside (`netListenerClose`,
`netConnClose`): the events of `Client.Close` are the calls it makes itself. -/
def Client.Close (env : Env) (c : Client) (w : World) : Option World :=
  -- c.lm.DoRange(...)
  match w.heap.managers[c.lm]? with
  | none => none
  | some lm =>
    let r1 := Manager.DoRange collectListenerStep lm ([], w)
    -- c.cm.DoRange(...)
    match r1.2.heap.managers[c.cm]? with
    | none => none
    | some cm =>
      let r2 := Manager.DoRange collectConnStep cm ([], r1.2)
      some (closeConns env r2.1 (closeListeners env r1.1 r2.2))

/-! ## `pkg/app2/listener.go`: `Listener` -/

/-- Go `func (l *Listener) Accept() (net.Conn, error)`, statement by statement. -/
def Listener.AcceptSteps (env : Env) (lref : Nat) (w : World) : Option Steps :=
  match w.heap.listeners[lref]? with
  | none => none
  | some l =>
    -- connID, remote, err := l.rpc.Accept(l.id)
    let reply := env.rpcAccept w l.rpc l.id
    let w1 := w.emit (Event.rpcAccept l.rpc l.id)
    match reply.2 with
    | some err => some ((none, some err), [w1])
    | none =>
      let connID := reply.1.1
      let remote := reply.1.2
      -- conn := &Conn{...}
      let conn := w1.heap.conns.length
      let w2 := w1.newConn
        { id := connID, rpc := l.rpc, loc := l.addr, remote := remote, freeConn := none,
          freeConnMx := RWMutex.zero }
      -- free, err := l.cm.Add(connID, conn)
      match w2.managerAdd l.cm connID (Value.conn conn) with
      | none => none
      | some (w3, _, some err) =>
        -- if err := conn.Close(); err != nil { log }
        let w4 := logIfError (netConnClose env conn w3)
        some ((none, some err), [w1, w2, w3, w4])
      | some (w3, free, none) =>
        -- conn.freeConnMx.Lock()
        match w3.connMx conn RWMutex.Lock with
        | none => none
        | some w4 =>
          -- conn.freeConn = free
          let w5 := w4.modifyConn conn (fun x => { x with freeConn := free })
          -- conn.freeConnMx.Unlock()
          match w5.connMx conn RWMutex.Unlock with
          | none => none
          | some w6 => some ((some conn, none), [w1, w2, w3, w4, w5, w6])

/-- Go `Listener.Accept`: the result and the state at the end. -/
def Listener.Accept (env : Env) (lref : Nat) (w : World) :
    Option ((Option Nat × Option Error) × World) :=
  (Listener.AcceptSteps env lref w).map (fun r => (r.1, r.2.getLastD w))

/-- Go `func (l *Listener) Close() error`.  The operand of `return` is evaluated first; the
deferred function runs after it and cannot change the value returned.  `none` when the call
does not return: while a writer holds `l.freeLisMx` (a `Listen` that has not yet set the
release closure) the deferred function waits in `RLock`.  The field `freeLis` is read under
the lock, where it is what it was at the call. -/
def Listener.Close (env : Env) (lref : Nat) (w : World) : Option (Option Error × World) :=
  match w.heap.listeners[lref]? with
  | none => none
  | some l =>
    -- return l.rpc.CloseListener(l.id)
    let err := env.rpcCloseListener w l.rpc l.id
    let w1 := w.emit (Event.rpcCloseListener l.rpc l.id)
    -- l.freeLisMx.RLock()
    match w1.listenerMx lref RWMutex.RLock with
    | none => none
    | some w2 =>
      -- if l.freeLis != nil { l.freeLis() }
      let w3 :=
        match l.freeLis with
        | some f => (w2.emit (Event.free f)).callFrees [f]
        | none => w2
      -- l.cm.DoRange(...)
      match w3.heap.managers[l.cm]? with
      | none => none
      | some cm =>
        let r := Manager.DoRange collectConnStep cm ([], w3)
        -- for _, conn := range conns { ... }
        let w4 := closeConns env r.1 r.2
        -- defer l.freeLisMx.RUnlock()
        match w4.listenerMx lref RWMutex.RUnlock with
        | none => none
        | some w5 => some (err, w5)

/-- Go `func (l *Listener) Addr() net.Addr`. -/
def Listener.Addr (l : Listener) : Addr := l.addr

/-! ## `pkg/app/appserver/server.go`: `Server` -/

/-- Go `type Server struct`: the fields `lis` (`none` is `nil`: no endpoint bound), `stopCh`
(`true` when the channel is closed) and `done` (the counter of the wait group). -/
structure Server where
  lis : Option Nat
  stopCh : Bool
  done : Nat
  deriving DecidableEq, Repr

/-- The server with its serving routines: `waiting` lists the connections of the routines
`serveConn` that stand at `<-s.stopCh`, and `trace` the calls made so far. -/
structure ServerWorld where
  s : Server
  waiting : List Nat
  trace : List Event
  deriving DecidableEq, Repr

/-- What lies outside `server.go`: the error returned by `Close` of the endpoint and by
`Close` of a connection, which may depend on everything that happened before. -/
structure ServerEnv where
  lisClose : List Event → Nat → Option Error
  connClose : List Event → Nat → Option Error

/-- Go `func New`: no endpoint, an open `stopCh`, a wait group at zero, no routine. -/
def Server.New : ServerWorld := ⟨⟨none, false, 0⟩, [], []⟩

/-- The body of the loop of `ListenAndServe` after a successful `Accept`:
`s.done.Add(1)` and `go s.serveConn(conn)`; the routine starts serving and stands at
`<-s.stopCh`. -/
def Server.accepted (conn : Nat) (sw : ServerWorld) : ServerWorld :=
  { sw with s := { sw.s with done := sw.s.done + 1 }, waiting := sw.waiting ++ [conn] }

/-- Go `func (s *Server) serveConn(conn net.Conn)` from `<-s.stopCh` on, for the routine of
`conn`: close the connection, log the error if any, `s.done.Done()`.  `none` when `Done`
finds the counter at zero (the wait group panics). -/
def Server.serveConn (env : ServerEnv) (conn : Nat) (sw : ServerWorld) : Option ServerWorld :=
  -- if err := conn.Close(); err != nil { log }
  let err := env.connClose sw.trace conn
  let t1 := sw.trace ++ [Event.connClose conn]
  let t2 := match err with
    | some e => t1 ++ [Event.logError e]
    | none => t1
  -- s.done.Done()
  if sw.s.done = 0 then none
  else some { s := { sw.s with done := sw.s.done - 1 }, waiting := sw.waiting.erase conn,
              trace := t2 }

/-- The routines standing at `<-s.stopCh` run to their end, one after the other. -/
def Server.drain (env : ServerEnv) : List Nat → ServerWorld → Option ServerWorld
  | [], sw => some sw
  | conn :: rest, sw =>
    match Server.serveConn env conn sw with
    | none => none
    | some sw' => Server.drain env rest sw'

/-- Go `func (s *Server) Close() error`.  `none` when the call does not return: `close` of a
closed `stopCh` panics, and `Wait` does not return while the counter is not zero. -/
def Server.Close (env : ServerEnv) (sw : ServerWorld) : Option (Option Error × ServerWorld) :=
  -- var err error; if s.lis != nil { err = s.lis.Close() }
  let err := match sw.s.lis with
    | some l => env.lisClose sw.trace l
    | none => none
  let sw1 := match sw.s.lis with
    | some l => { sw with trace := sw.trace ++ [Event.listenerClose l] }
    | none => sw
  -- close(s.stopCh)
  if sw1.s.stopCh then none
  else
    let sw2 := { sw1 with s := { sw1.s with stopCh := true } }
    -- s.done.Wait()
    match Server.drain env sw2.waiting sw2 with
    | none => none
    | some sw3 =>
      if sw3.s.done = 0 then some (err, sw3) else none

/-! ## Vocabulary of the statements, and sample objects -/

/-- The events of a logged error, if any. -/
def logTail (e : Option Error) : List Event :=
  match e with
  | some err => [Event.logError err]
  | none => []

/-- The connection closed by an event, if the event is a call of `Close` on a connection. -/
def Event.connClosed : Event → Option Nat
  | Event.connClose c => some c
  | _ => none

/-- The listener closed by an event, if the event is a call of `Close` on a listener. -/
def Event.listenerClosed : Event → Option Nat
  | Event.listenerClose l => some l
  | _ => none

/-- The connections held by a manager, in the order of `DoRange`. -/
def Manager.conns (m : Manager) : List Nat := m.filterMap (fun e => (AssertConn e.2).1)

/-- The listeners held by a manager, in the order of `DoRange`. -/
def Manager.listeners (m : Manager) : List Nat := m.filterMap (fun e => (AssertListener e.2).1)

/-- The event of calling a release closure, if one is assigned. -/
def freeEvents (f : Option Free) : List Event :=
  match f with
  | some f => [Event.free f]
  | none => []

/-- The heap after calling a release closure, if one is assigned. -/
def Heap.release (h : Heap) (f : Option Free) : Heap :=
  match f with
  | some f => f.call h
  | none => h

/-- Whether an event is a logged error. -/
def Event.isLog : Event → Bool
  | Event.logError _ => true
  | _ => false

/-- The control-protocol client and the handle of an event that is a call of
`CloseListener`. -/
def Event.closeListenerCall : Event → Option (Nat × Nat)
  | Event.rpcCloseListener rpc id => some (rpc, id)
  | _ => none

/-- The events of closing the endpoint of a server, if one is bound. -/
def endpointEvents (lis : Option Nat) : List Event :=
  match lis with
  | some l => [Event.listenerClose l]
  | none => []

/-- The error of closing the endpoint of a server: `nil` if none is bound. -/
def endpointError (env : ServerEnv) (sw : ServerWorld) : Option Error :=
  match sw.s.lis with
  | some l => env.lisClose sw.trace l
  | none => none

/-- A sample outside of the server: closing the endpoint fails, closing a connection
succeeds. -/
def exServerEnv : ServerEnv where
  lisClose := fun _ _ => some (Error.other 2)
  connClose := fun _ _ => none

/-- A sample server: endpoint 4 bound, two routines serving the connections 10 and 11. -/
def exServer : ServerWorld := ⟨⟨some 4, false, 2⟩, [10, 11], []⟩

/-- The connection at `conn` is held by the manager at `m` while its release closure is
not assigned and no writer holds its lock: a `Close` that finds it in the manager would find
no release closure. -/
def World.connExposed (w : World) (m conn : Nat) : Bool :=
  match w.heap.managers[m]?, w.heap.conns[conn]? with
  | some mgr, some x =>
    mgr.any (fun e => e.2 == Value.conn conn) && x.freeConn.isNone && !x.freeConnMx.writer
  | _, _ => false

/-- The listener at `lis` is held by the manager at `m` while its release closure is not
assigned and no writer holds its lock. -/
def World.listenerExposed (w : World) (m lis : Nat) : Bool :=
  match w.heap.managers[m]?, w.heap.listeners[lis]? with
  | some mgr, some x =>
    mgr.any (fun e => e.2 == Value.listener lis) && x.freeLis.isNone && !x.freeLisMx.writer
  | _, _ => false

/-- A sample address. -/
def exAddr : Addr := ⟨"dmsg", [2, 7], 80⟩

/-- A sample outside: `Dial` gives handle 7 and port 1024, `Listen` gives handle 3, `Accept`
gives handle 9; `CloseListener` fails once the listener has been closed before; `Close` of a
connection fails with an error and removes handle 9 from manager 2; `Close` of a listener
succeeds. -/
def exEnv : Env where
  rpcDial := fun _ _ _ => ((7, 1024), none)
  rpcListen := fun _ _ _ => (3, none)
  rpcAccept := fun _ _ _ => ((9, exAddr), none)
  rpcCloseListener := fun w rpc id =>
    if Event.rpcCloseListener rpc id ∈ w.trace then some (Error.other 1) else none
  connClose := fun _ _ => (some (Error.other 5), [⟨2, 9⟩])
  listenerClose := fun _ _ => (none, [])

/-- A sample client: listeners in manager 0, connections in manager 1. -/
def exClient : Client := ⟨[2, 1], 0, 0, 1⟩

/-- A sample state without objects and with three empty managers. -/
def exWorld : World := ⟨⟨[], [], [[], [], []]⟩, []⟩

/-- A sample listener with handle 3, whose connections are in manager 2. -/
def exListener : Listener := ⟨3, 0, ⟨"dmsg", [2, 1], 25⟩, 2, some ⟨0, 3⟩, RWMutex.zero⟩

/-- A sample connection with handle 7. -/
def exConn : Conn := ⟨7, 0, ⟨"dmsg", [2, 1], 1024⟩, exAddr, some ⟨1, 7⟩, RWMutex.zero⟩

/-- A sample state where the listener is registered and has accepted nothing. -/
def exWorldListening : World :=
  ⟨⟨[], [exListener], [[(3, Value.listener 0)], [], []]⟩, []⟩

/-- A sample state where the handles 3, 7 and 9 are taken. -/
def exWorldTaken : World :=
  ⟨⟨[exConn, { exConn with id := 9, freeConn := some ⟨2, 9⟩ }], [exListener],
    [[(3, Value.listener 0)], [(7, Value.conn 0)], [(9, Value.conn 1)]]⟩, []⟩

/-! ## Theorems: hex text form of `Key` -/

set_option maxRecDepth 100000 in
theorem hextable_hi (b : Nat) (h : b < 256) :
    fromHexChar (hextable.getD (b >>> 4) 0) = some (b >>> 4) := by
  revert b
  decide

set_option maxRecDepth 100000 in
theorem hextable_lo (b : Nat) (h : b < 256) :
    fromHexChar (hextable.getD (b &&& 0x0f) 0) = some (b &&& 0x0f) := by
  revert b
  decide

set_option maxRecDepth 100000 in
theorem nibbles_join (b : Nat) (h : b < 256) :
    ((((b >>> 4) <<< 4) % 256) ||| (b &&& 0x0f)) = b := by
  revert b
  decide

theorem hexEncode_length (k : List Nat) : (hexEncode k).length = 2 * k.length := by
  induction k with
  | nil => rfl
  | cons v rest ih => simp [hexEncode, ih]; omega

theorem hexDecodeLoop_hexEncode (k : List Nat) (hk : ∀ b ∈ k, b < 256) :
    hexDecodeLoop (hexEncode k) = (k, none) := by
  induction k with
  | nil => rfl
  | cons v rest ih =>
    have hv : v < 256 := hk v (List.mem_cons_self _ _)
    have hrest : ∀ b ∈ rest, b < 256 := fun b hb => hk b (List.mem_cons_of_mem _ hb)
    simp only [hexEncode, hexDecodeLoop, hextable_hi v hv, hextable_lo v hv, ih hrest,
      nibbles_join v hv]

/-- C10: for every byte slice `k`, `Key(k).MarshalText` returns no error and the hex string
of `k`, which is `Key(k).String()` and has length `2 * len(k)`, and `UnmarshalText` of that
text returns no error and leaves a key equal to `k`. -/
theorem Key_text_roundtrip (k : Key) (hk : ∀ b ∈ k, b < 256) :
    (Key.MarshalText k).2 = none ∧
    (Key.MarshalText k).1 = hexEncodeToString k ∧
    (Key.MarshalText k).1 = Key.String k ∧
    (Key.MarshalText k).1.length = 2 * k.length ∧
    Key.UnmarshalText (Key.MarshalText k).1 = (k, none) := by
  refine ⟨rfl, rfl, rfl, ?_, ?_⟩
  · simp [Key.MarshalText, Key.String, hexEncodeToString, hexEncode_length]
  · simp [Key.MarshalText, Key.String, hexEncodeToString, Key.UnmarshalText, hexDecode,
      hexDecodeLoop_hexEncode k hk, hexEncode_length, hexDecodedLen]

theorem Key_text_roundtrip_witness :
    (∀ b ∈ ([0, 171, 255] : Key), b < 256) ∧
    (Key.MarshalText [0, 171, 255]).1 = [48, 48, 97, 98, 102, 102] ∧
    Key.UnmarshalText [48, 48, 97, 98, 102, 102] = ([0, 171, 255], none) := by
  have h : ∀ b ∈ ([0, 171, 255] : Key), b < 256 := by decide
  have t := Key_text_roundtrip [0, 171, 255] h
  refine ⟨h, by decide, ?_⟩
  have e : (Key.MarshalText [0, 171, 255]).1 = [48, 48, 97, 98, 102, 102] := by decide
  rw [e] at t
  exact t.2.2.2.2

/-! ## Theorems: `ClientConfigFromEnv` -/

/-- C9: `ClientConfigFromEnv` returns no error exactly when the app key, the sock file and
the visor key are non-empty and the visor key parses; the returned pair is the config of the
three values read and no error in that case, and otherwise the zero config with
`ErrAppKeyNotProvided`, else `ErrSockFileNotProvided`, else `ErrVisorPKNotProvided`, else
`ErrVisorPKInvalid`, four different errors. -/
theorem ClientConfigFromEnv_spec (names : EnvNames) (getenv : String → String)
    (unmarshalText : String → Option PubKey) :
    ((ClientConfigFromEnv names getenv unmarshalText).2 = none ↔
      (getenv names.EnvAppKey ≠ "" ∧ getenv names.EnvSockFile ≠ "" ∧
        getenv names.EnvVisorPK ≠ "" ∧
        (unmarshalText (getenv names.EnvVisorPK)).isSome = true)) ∧
    ClientConfigFromEnv names getenv unmarshalText =
      (if getenv names.EnvAppKey = "" then
        (ClientConfig.zero, some Error.ErrAppKeyNotProvided)
      else if getenv names.EnvSockFile = "" then
        (ClientConfig.zero, some Error.ErrSockFileNotProvided)
      else if getenv names.EnvVisorPK = "" then
        (ClientConfig.zero, some Error.ErrVisorPKNotProvided)
      else if (unmarshalText (getenv names.EnvVisorPK)).isSome = true then
        (⟨(unmarshalText (getenv names.EnvVisorPK)).getD PubKey.zero,
          getenv names.EnvSockFile, getenv names.EnvAppKey⟩, none)
      else (ClientConfig.zero, some Error.ErrVisorPKInvalid)) ∧
    [Error.ErrAppKeyNotProvided, Error.ErrSockFileNotProvided,
      Error.ErrVisorPKNotProvided, Error.ErrVisorPKInvalid].Nodup := by
  refine ⟨?_, ?_, by decide⟩
  · unfold ClientConfigFromEnv
    by_cases h1 : getenv names.EnvAppKey = "" <;>
    by_cases h2 : getenv names.EnvSockFile = "" <;>
    by_cases h3 : getenv names.EnvVisorPK = "" <;>
    cases h4 : unmarshalText (getenv names.EnvVisorPK) <;> simp [h1, h2, h3, h4]
  · unfold ClientConfigFromEnv
    by_cases h1 : getenv names.EnvAppKey = "" <;>
    by_cases h2 : getenv names.EnvSockFile = "" <;>
    by_cases h3 : getenv names.EnvVisorPK = "" <;>
    cases h4 : unmarshalText (getenv names.EnvVisorPK) <;> simp [h1, h2, h3, h4]


/-! ## Lemmas on the state -/

@[simp] theorem emit_heap (w : World) (e : Event) : (w.emit e).heap = w.heap := rfl

@[simp] theorem emit_trace (w : World) (e : Event) : (w.emit e).trace = w.trace ++ [e] := rfl

@[simp] theorem newConn_conns (w : World) (c : Conn) :
    (w.newConn c).heap.conns = w.heap.conns ++ [c] := rfl

@[simp] theorem newConn_managers (w : World) (c : Conn) :
    (w.newConn c).heap.managers = w.heap.managers := rfl

@[simp] theorem newConn_listeners (w : World) (c : Conn) :
    (w.newConn c).heap.listeners = w.heap.listeners := rfl

@[simp] theorem newConn_trace (w : World) (c : Conn) : (w.newConn c).trace = w.trace := rfl

@[simp] theorem newListener_listeners (w : World) (l : Listener) :
    (w.newListener l).heap.listeners = w.heap.listeners ++ [l] := rfl

@[simp] theorem newListener_managers (w : World) (l : Listener) :
    (w.newListener l).heap.managers = w.heap.managers := rfl

@[simp] theorem newListener_conns (w : World) (l : Listener) :
    (w.newListener l).heap.conns = w.heap.conns := rfl

@[simp] theorem newListener_trace (w : World) (l : Listener) :
    (w.newListener l).trace = w.trace := rfl

@[simp] theorem newManager_managers (w : World) :
    w.newManager.heap.managers = w.heap.managers ++ [[]] := rfl

@[simp] theorem newManager_listeners (w : World) :
    w.newManager.heap.listeners = w.heap.listeners := rfl

@[simp] theorem newManager_conns (w : World) : w.newManager.heap.conns = w.heap.conns := rfl

@[simp] theorem newManager_trace (w : World) : w.newManager.trace = w.trace := rfl

@[simp] theorem modifyConn_managers (w : World) (ref : Nat) (f : Conn → Conn) :
    (w.modifyConn ref f).heap.managers = w.heap.managers := by
  unfold World.modifyConn; split <;> rfl

@[simp] theorem modifyConn_listeners (w : World) (ref : Nat) (f : Conn → Conn) :
    (w.modifyConn ref f).heap.listeners = w.heap.listeners := by
  unfold World.modifyConn; split <;> rfl

@[simp] theorem modifyConn_trace (w : World) (ref : Nat) (f : Conn → Conn) :
    (w.modifyConn ref f).trace = w.trace := by
  unfold World.modifyConn; split <;> rfl

@[simp] theorem modifyConn_length (w : World) (ref : Nat) (f : Conn → Conn) :
    (w.modifyConn ref f).heap.conns.length = w.heap.conns.length := by
  unfold World.modifyConn; split <;> simp

theorem modifyConn_get (w : World) (ref : Nat) (f : Conn → Conn) (i : Nat) :
    (w.modifyConn ref f).heap.conns[i]? =
      if i = ref then (w.heap.conns[i]?).map f else w.heap.conns[i]? := by
  unfold World.modifyConn
  by_cases h : i = ref
  · subst h
    cases hc : w.heap.conns[i]? with
    | none => simp [hc]
    | some x =>
      have hlt : i < w.heap.conns.length := by
        rcases List.getElem?_eq_some_iff.mp hc with ⟨h1, _⟩
        exact h1
      simp [hc, List.getElem?_set, hlt]
  · cases hc : w.heap.conns[ref]? with
    | none => simp [h]
    | some x => simp [h, List.getElem?_set, Ne.symm h]

@[simp] theorem modifyConn_get_self (w : World) (ref : Nat) (f : Conn → Conn) :
    (w.modifyConn ref f).heap.conns[ref]? = (w.heap.conns[ref]?).map f := by
  simp [modifyConn_get]

@[simp] theorem modifyListener_managers (w : World) (ref : Nat) (f : Listener → Listener) :
    (w.modifyListener ref f).heap.managers = w.heap.managers := by
  unfold World.modifyListener; split <;> rfl

@[simp] theorem modifyListener_conns (w : World) (ref : Nat) (f : Listener → Listener) :
    (w.modifyListener ref f).heap.conns = w.heap.conns := by
  unfold World.modifyListener; split <;> rfl

@[simp] theorem modifyListener_trace (w : World) (ref : Nat) (f : Listener → Listener) :
    (w.modifyListener ref f).trace = w.trace := by
  unfold World.modifyListener; split <;> rfl

@[simp] theorem modifyListener_length (w : World) (ref : Nat) (f : Listener → Listener) :
    (w.modifyListener ref f).heap.listeners.length = w.heap.listeners.length := by
  unfold World.modifyListener; split <;> simp

theorem modifyListener_get (w : World) (ref : Nat) (f : Listener → Listener) (i : Nat) :
    (w.modifyListener ref f).heap.listeners[i]? =
      if i = ref then (w.heap.listeners[i]?).map f else w.heap.listeners[i]? := by
  unfold World.modifyListener
  by_cases h : i = ref
  · subst h
    cases hc : w.heap.listeners[i]? with
    | none => simp [hc]
    | some x =>
      have hlt : i < w.heap.listeners.length := by
        rcases List.getElem?_eq_some_iff.mp hc with ⟨h1, _⟩
        exact h1
      simp [hc, List.getElem?_set, hlt]
  · cases hc : w.heap.listeners[ref]? with
    | none => simp [h]
    | some x => simp [h, List.getElem?_set, Ne.symm h]

@[simp] theorem modifyListener_get_self (w : World) (ref : Nat) (f : Listener → Listener) :
    (w.modifyListener ref f).heap.listeners[ref]? = (w.heap.listeners[ref]?).map f := by
  simp [modifyListener_get]

/-- The result of `Manager.Add` on a manager that is there. -/
theorem managerAdd_eq (w : World) (m id : Nat) (v : Value) (mgr : Manager)
    (h : w.heap.managers[m]? = some mgr) :
    w.managerAdd m id v =
      match Manager.Get mgr id with
      | some _ => some (w, none, some Error.valueAlreadyExists)
      | none => some (w.setManager m (mgr ++ [(id, v)]), some ⟨m, id⟩, none) := by
  simp [World.managerAdd, h]

@[simp] theorem setManager_conns (w : World) (m : Nat) (mgr : Manager) :
    (w.setManager m mgr).heap.conns = w.heap.conns := rfl

@[simp] theorem setManager_listeners (w : World) (m : Nat) (mgr : Manager) :
    (w.setManager m mgr).heap.listeners = w.heap.listeners := rfl

@[simp] theorem setManager_managers (w : World) (m : Nat) (mgr : Manager) :
    (w.setManager m mgr).heap.managers = w.heap.managers.set m mgr := rfl

@[simp] theorem setManager_trace (w : World) (m : Nat) (mgr : Manager) :
    (w.setManager m mgr).trace = w.trace := rfl

theorem newConn_get_new (w : World) (c : Conn) :
    (w.newConn c).heap.conns[w.heap.conns.length]? = some c := by
  simp

theorem newListener_get_new (w : World) (l : Listener) :
    (w.newListener l).heap.listeners[w.heap.listeners.length]? = some l := by
  simp

theorem set_get_self (ms : List Manager) (m : Nat) (mgr : Manager) (h : m < ms.length) :
    (ms.set m mgr)[m]? = some mgr := by
  simp [List.getElem?_set, h]

theorem lookup_append_new (mgr : Manager) (id : Nat) (v : Value)
    (h : Manager.Get mgr id = none) : Manager.Get (mgr ++ [(id, v)]) id = some v := by
  induction mgr with
  | nil => simp [Manager.Get, List.lookup]
  | cons e rest ih =>
    obtain ⟨k, x⟩ := e
    simp only [Manager.Get, List.cons_append, List.lookup] at h ⊢
    cases hk : (id == k) with
    | true => simp [hk] at h
    | false =>
      simp only [hk] at h ⊢
      exact ih h


/-! ## Lemmas on `Close` calls -/

theorem Free_call_conns (f : Free) (h : Heap) : (f.call h).conns = h.conns := by
  unfold Free.call; split <;> rfl

theorem Free_call_listeners (f : Free) (h : Heap) : (f.call h).listeners = h.listeners := by
  unfold Free.call; split <;> rfl

theorem Free_call_managers_length (f : Free) (h : Heap) :
    (f.call h).managers.length = h.managers.length := by
  unfold Free.call; split <;> simp

theorem foldl_Free_call (fs : List Free) (h : Heap) :
    (fs.foldl (fun h f => f.call h) h).conns = h.conns ∧
    (fs.foldl (fun h f => f.call h) h).listeners = h.listeners ∧
    (fs.foldl (fun h f => f.call h) h).managers.length = h.managers.length := by
  induction fs generalizing h with
  | nil => exact ⟨rfl, rfl, rfl⟩
  | cons f rest ih =>
    obtain ⟨h1, h2, h3⟩ := ih (f.call h)
    exact ⟨h1.trans (Free_call_conns f h), h2.trans (Free_call_listeners f h),
      h3.trans (Free_call_managers_length f h)⟩

@[simp] theorem callFrees_trace (w : World) (fs : List Free) :
    (w.callFrees fs).trace = w.trace := rfl

@[simp] theorem callFrees_conns (w : World) (fs : List Free) :
    (w.callFrees fs).heap.conns = w.heap.conns := (foldl_Free_call fs w.heap).1

@[simp] theorem callFrees_listeners (w : World) (fs : List Free) :
    (w.callFrees fs).heap.listeners = w.heap.listeners := (foldl_Free_call fs w.heap).2.1

@[simp] theorem callFrees_managers_length (w : World) (fs : List Free) :
    (w.callFrees fs).heap.managers.length = w.heap.managers.length :=
  (foldl_Free_call fs w.heap).2.2

@[simp] theorem netConnClose_trace (env : Env) (conn : Nat) (w : World) :
    (netConnClose env conn w).2.trace = w.trace ++ [Event.connClose conn] := rfl

@[simp] theorem netConnClose_conns (env : Env) (conn : Nat) (w : World) :
    (netConnClose env conn w).2.heap.conns = w.heap.conns := by
  simp [netConnClose]

@[simp] theorem netConnClose_listeners (env : Env) (conn : Nat) (w : World) :
    (netConnClose env conn w).2.heap.listeners = w.heap.listeners := by
  simp [netConnClose]

@[simp] theorem netConnClose_managers_length (env : Env) (conn : Nat) (w : World) :
    (netConnClose env conn w).2.heap.managers.length = w.heap.managers.length := by
  simp [netConnClose]

@[simp] theorem netListenerClose_trace (env : Env) (lis : Nat) (w : World) :
    (netListenerClose env lis w).2.trace = w.trace ++ [Event.listenerClose lis] := rfl

@[simp] theorem netListenerClose_conns (env : Env) (lis : Nat) (w : World) :
    (netListenerClose env lis w).2.heap.conns = w.heap.conns := by
  simp [netListenerClose]

@[simp] theorem netListenerClose_listeners (env : Env) (lis : Nat) (w : World) :
    (netListenerClose env lis w).2.heap.listeners = w.heap.listeners := by
  simp [netListenerClose]

@[simp] theorem netListenerClose_managers_length (env : Env) (lis : Nat) (w : World) :
    (netListenerClose env lis w).2.heap.managers.length = w.heap.managers.length := by
  simp [netListenerClose]

theorem logIfError_trace (r : Option Error × World) :
    (logIfError r).trace = r.2.trace ++ logTail r.1 := by
  unfold logIfError logTail
  split <;> simp [*]

@[simp] theorem logIfError_heap (r : Option Error × World) : (logIfError r).heap = r.2.heap := by
  unfold logIfError
  split <;> rfl

@[simp] theorem logTail_connClosed (e : Option Error) :
    (logTail e).filterMap Event.connClosed = [] := by
  cases e <;> rfl

@[simp] theorem logTail_listenerClosed (e : Option Error) :
    (logTail e).filterMap Event.listenerClosed = [] := by
  cases e <;> rfl

/-! ## Lemmas on the mutexes -/

theorem modifyConn_newConn (w : World) (c : Conn) (f : Conn → Conn) :
    (w.newConn c).modifyConn w.heap.conns.length f = w.newConn (f c) := by
  simp [World.modifyConn, World.newConn]

theorem modifyConn_setManager (w : World) (m : Nat) (x : Manager) (n : Nat) (f : Conn → Conn) :
    (w.setManager m x).modifyConn n f = (w.modifyConn n f).setManager m x := by
  unfold World.modifyConn World.setManager
  cases h : w.heap.conns[n]? <;> simp [h]

theorem connMx_newConn (w : World) (c : Conn) (op : RWMutex → Option RWMutex) :
    (w.newConn c).connMx w.heap.conns.length op =
      (op c.freeConnMx).map (fun m => w.newConn { c with freeConnMx := m }) := by
  have hget : (w.newConn c).heap.conns[w.heap.conns.length]? = some c := by simp
  unfold World.connMx
  rw [hget]
  cases h : op c.freeConnMx <;> simp [h, modifyConn_newConn]

theorem connMx_setManager (w : World) (m : Nat) (x : Manager) (n : Nat)
    (op : RWMutex → Option RWMutex) :
    (w.setManager m x).connMx n op = (w.connMx n op).map (fun w' => w'.setManager m x) := by
  unfold World.connMx
  cases h : w.heap.conns[n]? with
  | none => simp [World.setManager, h]
  | some c =>
    have h' : (w.setManager m x).heap.conns[n]? = some c := h
    rw [h']
    cases h2 : op c.freeConnMx <;> simp [h2, modifyConn_setManager]

theorem modifyListener_newListener (w : World) (l : Listener) (f : Listener → Listener) :
    (w.newListener l).modifyListener w.heap.listeners.length f = w.newListener (f l) := by
  simp [World.modifyListener, World.newListener]

theorem modifyListener_setManager (w : World) (m : Nat) (x : Manager) (n : Nat)
    (f : Listener → Listener) :
    (w.setManager m x).modifyListener n f = (w.modifyListener n f).setManager m x := by
  unfold World.modifyListener World.setManager
  cases h : w.heap.listeners[n]? <;> simp [h]

theorem listenerMx_newListener (w : World) (l : Listener) (op : RWMutex → Option RWMutex) :
    (w.newListener l).listenerMx w.heap.listeners.length op =
      (op l.freeLisMx).map (fun m => w.newListener { l with freeLisMx := m }) := by
  have hget : (w.newListener l).heap.listeners[w.heap.listeners.length]? = some l := by simp
  unfold World.listenerMx
  rw [hget]
  cases h : op l.freeLisMx <;> simp [h, modifyListener_newListener]

theorem listenerMx_setManager (w : World) (m : Nat) (x : Manager) (n : Nat)
    (op : RWMutex → Option RWMutex) :
    (w.setManager m x).listenerMx n op =
      (w.listenerMx n op).map (fun w' => w'.setManager m x) := by
  unfold World.listenerMx
  cases h : w.heap.listeners[n]? with
  | none => simp [World.setManager, h]
  | some c =>
    have h' : (w.setManager m x).heap.listeners[n]? = some c := h
    rw [h']
    cases h2 : op c.freeLisMx <;> simp [h2, modifyListener_setManager]

theorem listenerMx_eq (w : World) (ref : Nat) (op : RWMutex → Option RWMutex) (l : Listener)
    (m : RWMutex) (h : w.heap.listeners[ref]? = some l) (hop : op l.freeLisMx = some m) :
    w.listenerMx ref op = some (w.modifyListener ref (fun x => { x with freeLisMx := m })) := by
  simp [World.listenerMx, h, hop]

theorem listenerMx_blocked (w : World) (ref : Nat) (op : RWMutex → Option RWMutex)
    (l : Listener) (h : w.heap.listeners[ref]? = some l) (hop : op l.freeLisMx = none) :
    w.listenerMx ref op = none := by
  simp [World.listenerMx, h, hop]

theorem modifyConn_newConn_at (w : World) (c : Conn) (f : Conn → Conn) (n : Nat)
    (hn : n = w.heap.conns.length) : (w.newConn c).modifyConn n f = w.newConn (f c) := by
  subst hn
  exact modifyConn_newConn w c f

theorem connMx_newConn_at (w : World) (c : Conn) (op : RWMutex → Option RWMutex) (n : Nat)
    (hn : n = w.heap.conns.length) :
    (w.newConn c).connMx n op =
      (op c.freeConnMx).map (fun m => w.newConn { c with freeConnMx := m }) := by
  subst hn
  exact connMx_newConn w c op

theorem modifyListener_newListener_at (w : World) (l : Listener) (f : Listener → Listener)
    (n : Nat) (hn : n = w.heap.listeners.length) :
    (w.newListener l).modifyListener n f = w.newListener (f l) := by
  subst hn
  exact modifyListener_newListener w l f

theorem listenerMx_newListener_at (w : World) (l : Listener) (op : RWMutex → Option RWMutex)
    (n : Nat) (hn : n = w.heap.listeners.length) :
    (w.newListener l).listenerMx n op =
      (op l.freeLisMx).map (fun m => w.newListener { l with freeLisMx := m }) := by
  subst hn
  exact listenerMx_newListener w l op

theorem Lock_zero : RWMutex.Lock RWMutex.zero = some ⟨true, 0⟩ := rfl

theorem Unlock_locked : RWMutex.Unlock ⟨true, 0⟩ = some RWMutex.zero := rfl


/-! ## Theorems: `Client.Dial` -/

/-- The result of `Client.Dial` when the control protocol fails. -/
theorem Client_Dial_rpc_error (env : Env) (c : Client) (remote : Addr) (w : World)
    (err : Error) (hr : (env.rpcDial w c.rpc remote).2 = some err) :
    Client.Dial env c remote w =
      some ((none, some err), w.emit (Event.rpcDial c.rpc remote)) := by
  simp only [Client.Dial, Client.DialSteps, hr]
  rfl

/-- The result of `Client.Dial` when the handle returned by the control protocol is taken. -/
theorem Client_Dial_taken (env : Env) (c : Client) (remote : Addr) (w : World) (mgr : Manager)
    (v : Value) (hmgr : w.heap.managers[c.cm]? = some mgr)
    (hr : (env.rpcDial w c.rpc remote).2 = none)
    (hg : Manager.Get mgr (env.rpcDial w c.rpc remote).1.1 = some v) :
    Client.Dial env c remote w =
      some ((none, some Error.valueAlreadyExists),
        logIfError (netConnClose env w.heap.conns.length
          ((w.emit (Event.rpcDial c.rpc remote)).newConn
            { id := (env.rpcDial w c.rpc remote).1.1, rpc := c.rpc,
              loc := ⟨remote.Net, c.visorPK, (env.rpcDial w c.rpc remote).1.2⟩,
              remote := remote, freeConn := none, freeConnMx := RWMutex.zero }))) := by
  simp only [Client.Dial, Client.DialSteps, hr]
  simp only [connMx_newConn_at, connMx_setManager, modifyConn_newConn_at, modifyConn_setManager,
    World.managerAdd, newConn_managers, emit_heap, hmgr, hg, Lock_zero, Unlock_locked,
    Option.map_some']
  rfl

/-- The result of `Client.Dial` when the handle returned by the control protocol is free. -/
theorem Client_Dial_registered (env : Env) (c : Client) (remote : Addr) (w : World)
    (mgr : Manager) (hmgr : w.heap.managers[c.cm]? = some mgr)
    (hr : (env.rpcDial w c.rpc remote).2 = none)
    (hg : Manager.Get mgr (env.rpcDial w c.rpc remote).1.1 = none) :
    Client.Dial env c remote w =
      some ((some w.heap.conns.length, none),
        ((w.emit (Event.rpcDial c.rpc remote)).newConn
          { id := (env.rpcDial w c.rpc remote).1.1, rpc := c.rpc,
            loc := ⟨remote.Net, c.visorPK, (env.rpcDial w c.rpc remote).1.2⟩,
            remote := remote, freeConn := some ⟨c.cm, (env.rpcDial w c.rpc remote).1.1⟩,
            freeConnMx := RWMutex.zero }).setManager c.cm
          (mgr ++ [((env.rpcDial w c.rpc remote).1.1, Value.conn w.heap.conns.length)])) := by
  simp only [Client.Dial, Client.DialSteps, hr]
  simp only [connMx_newConn_at, connMx_setManager, modifyConn_newConn_at, modifyConn_setManager,
    World.managerAdd, newConn_managers, emit_heap, hmgr, hg, Lock_zero, Unlock_locked,
    Option.map_some']
  rfl

/-! ## Theorems: `Client.Listen` and `Listener.Accept` -/

theorem append_get_old (ms : List Manager) (m : Nat) (mgr : Manager) (x : Manager)
    (h : ms[m]? = some mgr) : (ms ++ [x])[m]? = some mgr := by
  have hlt : m < ms.length := (List.getElem?_eq_some_iff.mp h).1
  rw [List.getElem?_append_left hlt]
  exact h

/-- The result of `Client.Listen` when the control protocol fails. -/
theorem Client_Listen_rpc_error (env : Env) (c : Client) (n : String) (port : Nat) (w : World)
    (err : Error) (hr : (env.rpcListen w c.rpc ⟨n, c.visorPK, port⟩).2 = some err) :
    Client.Listen env c n port w =
      some ((none, some err), w.emit (Event.rpcListen c.rpc ⟨n, c.visorPK, port⟩)) := by
  simp only [Client.Listen, Client.ListenSteps, hr]
  rfl

/-- The result of `Client.Listen` when the handle returned by the control protocol is taken. -/
theorem Client_Listen_taken (env : Env) (c : Client) (n : String) (port : Nat) (w : World)
    (mgr : Manager) (v : Value) (hmgr : w.heap.managers[c.lm]? = some mgr)
    (hr : (env.rpcListen w c.rpc ⟨n, c.visorPK, port⟩).2 = none)
    (hg : Manager.Get mgr (env.rpcListen w c.rpc ⟨n, c.visorPK, port⟩).1 = some v) :
    Client.Listen env c n port w =
      some ((none, some Error.valueAlreadyExists),
        logIfError (netListenerClose env w.heap.listeners.length
          (((w.emit (Event.rpcListen c.rpc ⟨n, c.visorPK, port⟩)).newManager).newListener
            { id := (env.rpcListen w c.rpc ⟨n, c.visorPK, port⟩).1, rpc := c.rpc,
              addr := ⟨n, c.visorPK, port⟩, cm := w.heap.managers.length, freeLis := none,
              freeLisMx := RWMutex.zero }))) := by
  have hmgr' := append_get_old _ _ _ [] hmgr
  simp only [Client.Listen, Client.ListenSteps, hr]
  simp only [listenerMx_newListener_at, listenerMx_setManager, modifyListener_newListener_at,
    modifyListener_setManager, World.managerAdd, newListener_managers, newManager_managers,
    newManager_listeners, emit_heap, hmgr', hg, Lock_zero, Unlock_locked, Option.map_some']
  rfl

/-- The result of `Client.Listen` when the handle returned by the control protocol is free. -/
theorem Client_Listen_registered (env : Env) (c : Client) (n : String) (port : Nat)
    (w : World) (mgr : Manager) (hmgr : w.heap.managers[c.lm]? = some mgr)
    (hr : (env.rpcListen w c.rpc ⟨n, c.visorPK, port⟩).2 = none)
    (hg : Manager.Get mgr (env.rpcListen w c.rpc ⟨n, c.visorPK, port⟩).1 = none) :
    Client.Listen env c n port w =
      some ((some w.heap.listeners.length, none),
        (((w.emit (Event.rpcListen c.rpc ⟨n, c.visorPK, port⟩)).newManager).newListener
          { id := (env.rpcListen w c.rpc ⟨n, c.visorPK, port⟩).1, rpc := c.rpc,
            addr := ⟨n, c.visorPK, port⟩, cm := w.heap.managers.length,
            freeLis := some ⟨c.lm, (env.rpcListen w c.rpc ⟨n, c.visorPK, port⟩).1⟩,
            freeLisMx := RWMutex.zero }).setManager c.lm
          (mgr ++ [((env.rpcListen w c.rpc ⟨n, c.visorPK, port⟩).1,
            Value.listener w.heap.listeners.length)])) := by
  have hmgr' := append_get_old _ _ _ [] hmgr
  simp only [Client.Listen, Client.ListenSteps, hr]
  simp only [listenerMx_newListener_at, listenerMx_setManager, modifyListener_newListener_at,
    modifyListener_setManager, World.managerAdd, newListener_managers, newManager_managers,
    newManager_listeners, emit_heap, hmgr', hg, Lock_zero, Unlock_locked, Option.map_some']
  rfl

/-- The result of `Listener.Accept` when the control protocol fails. -/
theorem Listener_Accept_rpc_error (env : Env) (lref : Nat) (l : Listener) (w : World)
    (err : Error) (hl : w.heap.listeners[lref]? = some l)
    (hr : (env.rpcAccept w l.rpc l.id).2 = some err) :
    Listener.Accept env lref w =
      some ((none, some err), w.emit (Event.rpcAccept l.rpc l.id)) := by
  simp only [Listener.Accept, Listener.AcceptSteps, hl, hr]
  rfl

/-- The result of `Listener.Accept` when the handle returned by the control protocol is taken. -/
theorem Listener_Accept_taken (env : Env) (lref : Nat) (l : Listener) (w : World)
    (mgr : Manager) (v : Value) (hl : w.heap.listeners[lref]? = some l)
    (hmgr : w.heap.managers[l.cm]? = some mgr)
    (hr : (env.rpcAccept w l.rpc l.id).2 = none)
    (hg : Manager.Get mgr (env.rpcAccept w l.rpc l.id).1.1 = some v) :
    Listener.Accept env lref w =
      some ((none, some Error.valueAlreadyExists),
        logIfError (netConnClose env w.heap.conns.length
          ((w.emit (Event.rpcAccept l.rpc l.id)).newConn
            { id := (env.rpcAccept w l.rpc l.id).1.1, rpc := l.rpc, loc := l.addr,
              remote := (env.rpcAccept w l.rpc l.id).1.2, freeConn := none,
              freeConnMx := RWMutex.zero }))) := by
  simp only [Listener.Accept, Listener.AcceptSteps, hl, hr]
  simp only [connMx_newConn_at, connMx_setManager, modifyConn_newConn_at, modifyConn_setManager,
    World.managerAdd, newConn_managers, emit_heap, hmgr, hg, Lock_zero, Unlock_locked,
    Option.map_some']
  rfl

/-- The result of `Listener.Accept` when the handle returned by the control protocol is free. -/
theorem Listener_Accept_registered (env : Env) (lref : Nat) (l : Listener) (w : World)
    (mgr : Manager) (hl : w.heap.listeners[lref]? = some l)
    (hmgr : w.heap.managers[l.cm]? = some mgr)
    (hr : (env.rpcAccept w l.rpc l.id).2 = none)
    (hg : Manager.Get mgr (env.rpcAccept w l.rpc l.id).1.1 = none) :
    Listener.Accept env lref w =
      some ((some w.heap.conns.length, none),
        ((w.emit (Event.rpcAccept l.rpc l.id)).newConn
          { id := (env.rpcAccept w l.rpc l.id).1.1, rpc := l.rpc, loc := l.addr,
            remote := (env.rpcAccept w l.rpc l.id).1.2,
            freeConn := some ⟨l.cm, (env.rpcAccept w l.rpc l.id).1.1⟩,
            freeConnMx := RWMutex.zero }).setManager l.cm
          (mgr ++ [((env.rpcAccept w l.rpc l.id).1.1, Value.conn w.heap.conns.length)])) := by
  simp only [Listener.Accept, Listener.AcceptSteps, hl, hr]
  simp only [connMx_newConn_at, connMx_setManager, modifyConn_newConn_at, modifyConn_setManager,
    World.managerAdd, newConn_managers, emit_heap, hmgr, hg, Lock_zero, Unlock_locked,
    Option.map_some']
  rfl

/-! ## Theorems: what `Dial` and `Accept` return -/

/-- C1: for every client whose manager of connections is in the heap and every remote
address, `Client.Dial` returns, after calling the control-protocol `Dial` with that address,
and returns either an error and no connection, or a connection and no error that the manager
of connections holds under the handle returned by the control protocol, with the given remote
address and the local address (network type of the remote address, visor public key of the
client, local port returned).  Which of the two is decided as follows: when the control
protocol fails, its error is returned and the heap is unchanged; when it succeeds with a
handle that is taken, the error of `Add` is returned; when it succeeds with a free handle,
the connection is returned: a new object, the last of the heap, with the handle and the two
addresses, added to the manager under the handle, with nothing else changed. -/
theorem Client_Dial_spec (env : Env) (c : Client) (remote : Addr) (w : World) (mgr : Manager)
    (hmgr : w.heap.managers[c.cm]? = some mgr) :
    ∃ r w', Client.Dial env c remote w = some (r, w') ∧
      ((r.1 = none ∧ r.2 ≠ none) ∨
       (∃ conn x mgr', r = (some conn, none) ∧
          (env.rpcDial w c.rpc remote).2 = none ∧
          w'.heap.managers[c.cm]? = some mgr' ∧
          Manager.Get mgr' (env.rpcDial w c.rpc remote).1.1 = some (Value.conn conn) ∧
          w'.heap.conns[conn]? = some x ∧
          x.id = (env.rpcDial w c.rpc remote).1.1 ∧
          x.remote = remote ∧
          x.loc = ⟨remote.Net, c.visorPK, (env.rpcDial w c.rpc remote).1.2⟩)) ∧
      (∃ evs, w'.trace = w.trace ++ Event.rpcDial c.rpc remote :: evs) ∧
      (∀ err, (env.rpcDial w c.rpc remote).2 = some err →
        r = (none, some err) ∧ w'.heap = w.heap) ∧
      ((env.rpcDial w c.rpc remote).2 = none →
        Manager.Get mgr (env.rpcDial w c.rpc remote).1.1 ≠ none →
        r = (none, some Error.valueAlreadyExists)) ∧
      ((env.rpcDial w c.rpc remote).2 = none →
        Manager.Get mgr (env.rpcDial w c.rpc remote).1.1 = none →
        r = (some w.heap.conns.length, none) ∧
        w'.heap.conns = w.heap.conns ++
          [{ id := (env.rpcDial w c.rpc remote).1.1, rpc := c.rpc,
             loc := ⟨remote.Net, c.visorPK, (env.rpcDial w c.rpc remote).1.2⟩,
             remote := remote, freeConn := some ⟨c.cm, (env.rpcDial w c.rpc remote).1.1⟩,
             freeConnMx := RWMutex.zero }] ∧
        w'.heap.managers = w.heap.managers.set c.cm
          (mgr ++ [((env.rpcDial w c.rpc remote).1.1, Value.conn w.heap.conns.length)]) ∧
        w'.heap.listeners = w.heap.listeners ∧
        w'.trace = w.trace ++ [Event.rpcDial c.rpc remote]) := by
  have hcm : c.cm < w.heap.managers.length := (List.getElem?_eq_some_iff.mp hmgr).1
  cases hr : (env.rpcDial w c.rpc remote).2 with
  | some err =>
    refine ⟨_, _, Client_Dial_rpc_error env c remote w err hr, Or.inl ⟨rfl, by simp⟩,
      ⟨[], rfl⟩, ?_, ?_, ?_⟩
    · intro err' h'
      cases h'
      exact ⟨rfl, rfl⟩
    · intro h'
      cases h'
    · intro h'
      cases h'
  | none =>
    cases hg : Manager.Get mgr (env.rpcDial w c.rpc remote).1.1 with
    | some v =>
      refine ⟨_, _, Client_Dial_taken env c remote w mgr v hmgr hr hg, Or.inl ⟨rfl, by simp⟩,
        ⟨Event.connClose w.heap.conns.length ::
          logTail (netConnClose env w.heap.conns.length
            ((w.emit (Event.rpcDial c.rpc remote)).newConn
              { id := (env.rpcDial w c.rpc remote).1.1, rpc := c.rpc,
                loc := ⟨remote.Net, c.visorPK, (env.rpcDial w c.rpc remote).1.2⟩,
                remote := remote, freeConn := none, freeConnMx := RWMutex.zero })).1, ?_⟩,
        ?_, ?_, ?_⟩
      · simp [logIfError_trace]
      · intro err' h'
        cases h'
      · intro _ _
        rfl
      · intro _ h'
        cases h'
    | none =>
      refine ⟨_, _, Client_Dial_registered env c remote w mgr hmgr hr hg,
        Or.inr ⟨w.heap.conns.length,
          { id := (env.rpcDial w c.rpc remote).1.1, rpc := c.rpc,
            loc := ⟨remote.Net, c.visorPK, (env.rpcDial w c.rpc remote).1.2⟩,
            remote := remote, freeConn := some ⟨c.cm, (env.rpcDial w c.rpc remote).1.1⟩,
            freeConnMx := RWMutex.zero },
          _, rfl, rfl, set_get_self _ _ _ hcm,
          lookup_append_new mgr _ _ hg, ?_, rfl, rfl, rfl⟩,
        ⟨[], rfl⟩, ?_, ?_, ?_⟩
      · simp only [setManager_conns, newConn_conns, emit_heap]
        exact List.getElem?_concat_length _ _
      · intro err' h'
        cases h'
      · intro _ h'
        exact absurd rfl h'
      · intro _ _
        exact ⟨rfl, rfl, rfl, rfl, rfl⟩

theorem Client_Dial_spec_witness :
    ∃ w', Client.Dial exEnv exClient exAddr exWorld = some ((some 0, none), w') ∧
      w'.heap.conns =
        [{ id := 7, rpc := 0, loc := ⟨"dmsg", [2, 1], 1024⟩, remote := exAddr,
           freeConn := some ⟨1, 7⟩, freeConnMx := RWMutex.zero }] ∧
      w'.heap.managers = [[], [(7, Value.conn 0)], []] ∧
      w'.trace = [Event.rpcDial 0 exAddr] := by
  obtain ⟨r, w', h, _, _, _, _, hs⟩ :=
    Client_Dial_spec exEnv exClient exAddr exWorld [] rfl
  obtain ⟨hr, hc, hm, _, ht⟩ := hs rfl rfl
  subst hr
  exact ⟨w', h, hc, hm, ht⟩

/-- C2: for every listener in the heap whose manager of connections is in the heap,
`Listener.Accept` returns, after calling the control-protocol `Accept` with the handle of the
listener, and returns either an error and no connection, or a connection and no error that
the manager of the listener holds under the handle returned by the control protocol, with
the address of the listener (what `Addr` returns) as local address and the address returned
by the control protocol as remote address.  Which of the two is decided as follows: when the
control protocol fails, its error is returned and the heap is unchanged; when it succeeds
with a handle that is taken, the error of `Add` is returned with no connection, and among the
events of the call there is exactly one `Close` of a connection, on the fresh one; when it
succeeds with a free handle, the connection is returned: a new object, the last of the heap,
with the handle and the two addresses, added to the manager under the handle, with nothing
else changed and no `Close`. -/
theorem Listener_Accept_spec (env : Env) (lref : Nat) (l : Listener) (w : World)
    (mgr : Manager) (hl : w.heap.listeners[lref]? = some l)
    (hmgr : w.heap.managers[l.cm]? = some mgr) :
    ∃ r w', Listener.Accept env lref w = some (r, w') ∧
      ((r.1 = none ∧ r.2 ≠ none) ∨
       (∃ conn x mgr', r = (some conn, none) ∧
          (env.rpcAccept w l.rpc l.id).2 = none ∧
          w'.heap.managers[l.cm]? = some mgr' ∧
          Manager.Get mgr' (env.rpcAccept w l.rpc l.id).1.1 = some (Value.conn conn) ∧
          w'.heap.conns[conn]? = some x ∧
          x.id = (env.rpcAccept w l.rpc l.id).1.1 ∧
          x.loc = Listener.Addr l ∧
          x.remote = (env.rpcAccept w l.rpc l.id).1.2)) ∧
      ((env.rpcAccept w l.rpc l.id).2 = none →
        Manager.Get mgr (env.rpcAccept w l.rpc l.id).1.1 ≠ none →
        r = (none, some Error.valueAlreadyExists) ∧
        ∃ evs, w'.trace = w.trace ++ evs ∧
          evs.filterMap Event.connClosed = [w.heap.conns.length]) ∧
      (∃ evs, w'.trace = w.trace ++ Event.rpcAccept l.rpc l.id :: evs) ∧
      (∀ err, (env.rpcAccept w l.rpc l.id).2 = some err →
        r = (none, some err) ∧ w'.heap = w.heap) ∧
      ((env.rpcAccept w l.rpc l.id).2 = none →
        Manager.Get mgr (env.rpcAccept w l.rpc l.id).1.1 = none →
        r = (some w.heap.conns.length, none) ∧
        w'.heap.conns = w.heap.conns ++
          [{ id := (env.rpcAccept w l.rpc l.id).1.1, rpc := l.rpc, loc := Listener.Addr l,
             remote := (env.rpcAccept w l.rpc l.id).1.2,
             freeConn := some ⟨l.cm, (env.rpcAccept w l.rpc l.id).1.1⟩,
             freeConnMx := RWMutex.zero }] ∧
        w'.heap.managers = w.heap.managers.set l.cm
          (mgr ++ [((env.rpcAccept w l.rpc l.id).1.1, Value.conn w.heap.conns.length)]) ∧
        w'.heap.listeners = w.heap.listeners ∧
        w'.trace = w.trace ++ [Event.rpcAccept l.rpc l.id]) := by
  have hcm : l.cm < w.heap.managers.length := (List.getElem?_eq_some_iff.mp hmgr).1
  cases hr : (env.rpcAccept w l.rpc l.id).2 with
  | some err =>
    refine ⟨_, _, Listener_Accept_rpc_error env lref l w err hl hr, Or.inl ⟨rfl, by simp⟩,
      ?_, ⟨[], rfl⟩, ?_, ?_⟩
    · intro h'
      cases h'
    · intro err' h'
      cases h'
      exact ⟨rfl, rfl⟩
    · intro h'
      cases h'
  | none =>
    cases hg : Manager.Get mgr (env.rpcAccept w l.rpc l.id).1.1 with
    | some v =>
      refine ⟨_, _, Listener_Accept_taken env lref l w mgr v hl hmgr hr hg,
        Or.inl ⟨rfl, by simp⟩, ?_,
        ⟨Event.connClose w.heap.conns.length ::
          logTail (netConnClose env w.heap.conns.length
            ((w.emit (Event.rpcAccept l.rpc l.id)).newConn
              { id := (env.rpcAccept w l.rpc l.id).1.1, rpc := l.rpc, loc := l.addr,
                remote := (env.rpcAccept w l.rpc l.id).1.2, freeConn := none,
                freeConnMx := RWMutex.zero })).1, ?_⟩,
        ?_, ?_⟩
      · intro _ _
        refine ⟨rfl, Event.rpcAccept l.rpc l.id :: Event.connClose w.heap.conns.length ::
          logTail (netConnClose env w.heap.conns.length
            ((w.emit (Event.rpcAccept l.rpc l.id)).newConn
              { id := (env.rpcAccept w l.rpc l.id).1.1, rpc := l.rpc, loc := l.addr,
                remote := (env.rpcAccept w l.rpc l.id).1.2, freeConn := none,
                freeConnMx := RWMutex.zero })).1, ?_, ?_⟩
        · simp [logIfError_trace]
        · simp [Event.connClosed]
      · simp [logIfError_trace]
      · intro err' h'
        cases h'
      · intro _ h'
        cases h'
    | none =>
      refine ⟨_, _, Listener_Accept_registered env lref l w mgr hl hmgr hr hg,
        Or.inr ⟨w.heap.conns.length,
          { id := (env.rpcAccept w l.rpc l.id).1.1, rpc := l.rpc, loc := l.addr,
            remote := (env.rpcAccept w l.rpc l.id).1.2,
            freeConn := some ⟨l.cm, (env.rpcAccept w l.rpc l.id).1.1⟩,
            freeConnMx := RWMutex.zero },
          _, rfl, rfl, set_get_self _ _ _ hcm,
          lookup_append_new mgr _ _ hg, ?_, rfl, rfl, rfl⟩,
        ?_, ⟨[], rfl⟩, ?_, ?_⟩
      · simp only [setManager_conns, newConn_conns, emit_heap]
        exact List.getElem?_concat_length _ _
      · intro _ h'
        exact absurd rfl h'
      · intro err' h'
        cases h'
      · intro _ _
        exact ⟨rfl, rfl, rfl, rfl, rfl⟩

theorem Listener_Accept_spec_witness :
    (∃ w', Listener.Accept exEnv 0 exWorldListening = some ((some 0, none), w') ∧
      w'.heap.conns =
        [{ id := 9, rpc := 0, loc := ⟨"dmsg", [2, 1], 25⟩, remote := exAddr,
           freeConn := some ⟨2, 9⟩, freeConnMx := RWMutex.zero }] ∧
      w'.heap.managers = [[(3, Value.listener 0)], [], [(9, Value.conn 0)]] ∧
      w'.trace = [Event.rpcAccept 0 3]) ∧
    (∃ r w', Listener.Accept exEnv 0 exWorldTaken = some (r, w') ∧
      r = (none, some Error.valueAlreadyExists) ∧
      ∃ evs, w'.trace = exWorldTaken.trace ++ evs ∧
        evs.filterMap Event.connClosed = [2]) := by
  constructor
  · obtain ⟨r, w', h, _, _, _, _, hs⟩ :=
      Listener_Accept_spec exEnv 0 exListener exWorldListening [] rfl rfl
    obtain ⟨hr, hc, hm, _, ht⟩ := hs rfl rfl
    subst hr
    exact ⟨w', h, hc, hm, ht⟩
  · obtain ⟨r, w', h, _, h2, _⟩ := Listener_Accept_spec exEnv 0 exListener exWorldTaken
      [(9, Value.conn 1)] rfl rfl
    exact ⟨r, w', h, h2 rfl (by decide)⟩

/-- C5: when the control-protocol call succeeds and the handle it returns is already in the
manager, `Client.Dial` returns no connection and the error of `Add`, and among the events of
the call there is exactly one `Close` of a connection, on the fresh connection; `Client.Listen`
returns no listener and the error of `Add`, with exactly one `Close` of a listener, on the
fresh listener.  Whenever `Dial` returns a connection, the manager of connections holds it,
and whenever `Listen` returns a listener, the manager of listeners holds it. -/
theorem Client_registration_failure (env : Env) (c : Client) (remote : Addr) (n : String)
    (port : Nat) (w : World) (cmgr lmgr : Manager)
    (hcm : w.heap.managers[c.cm]? = some cmgr) (hlm : w.heap.managers[c.lm]? = some lmgr) :
    ((env.rpcDial w c.rpc remote).2 = none →
      Manager.Get cmgr (env.rpcDial w c.rpc remote).1.1 ≠ none →
      ∃ w' evs, Client.Dial env c remote w = some ((none, some Error.valueAlreadyExists), w') ∧
        w'.trace = w.trace ++ evs ∧
        evs.filterMap Event.connClosed = [w.heap.conns.length]) ∧
    ((env.rpcListen w c.rpc ⟨n, c.visorPK, port⟩).2 = none →
      Manager.Get lmgr (env.rpcListen w c.rpc ⟨n, c.visorPK, port⟩).1 ≠ none →
      ∃ w' evs, Client.Listen env c n port w =
          some ((none, some Error.valueAlreadyExists), w') ∧
        w'.trace = w.trace ++ evs ∧
        evs.filterMap Event.listenerClosed = [w.heap.listeners.length]) ∧
    (∀ r w' conn, Client.Dial env c remote w = some (r, w') → r.1 = some conn →
      ∃ mgr id, w'.heap.managers[c.cm]? = some mgr ∧
        Manager.Get mgr id = some (Value.conn conn)) ∧
    (∀ r w' lis, Client.Listen env c n port w = some (r, w') → r.1 = some lis →
      ∃ mgr id, w'.heap.managers[c.lm]? = some mgr ∧
        Manager.Get mgr id = some (Value.listener lis)) := by
  refine ⟨?_, ?_, ?_, ?_⟩
  · intro hr hg
    cases hv : Manager.Get cmgr (env.rpcDial w c.rpc remote).1.1 with
    | none => exact absurd hv hg
    | some v =>
      refine ⟨_, Event.rpcDial c.rpc remote :: Event.connClose w.heap.conns.length ::
        logTail (netConnClose env w.heap.conns.length
          ((w.emit (Event.rpcDial c.rpc remote)).newConn
            { id := (env.rpcDial w c.rpc remote).1.1, rpc := c.rpc,
              loc := ⟨remote.Net, c.visorPK, (env.rpcDial w c.rpc remote).1.2⟩,
              remote := remote, freeConn := none, freeConnMx := RWMutex.zero })).1,
        Client_Dial_taken env c remote w cmgr v hcm hr hv, ?_, ?_⟩
      · simp [logIfError_trace]
      · simp [Event.connClosed]
  · intro hr hg
    cases hv : Manager.Get lmgr (env.rpcListen w c.rpc ⟨n, c.visorPK, port⟩).1 with
    | none => exact absurd hv hg
    | some v =>
      refine ⟨_, Event.rpcListen c.rpc ⟨n, c.visorPK, port⟩ ::
        Event.listenerClose w.heap.listeners.length ::
        logTail (netListenerClose env w.heap.listeners.length
          (((w.emit (Event.rpcListen c.rpc ⟨n, c.visorPK, port⟩)).newManager).newListener
            { id := (env.rpcListen w c.rpc ⟨n, c.visorPK, port⟩).1, rpc := c.rpc,
              addr := ⟨n, c.visorPK, port⟩, cm := w.heap.managers.length, freeLis := none,
              freeLisMx := RWMutex.zero })).1,
        Client_Listen_taken env c n port w lmgr v hlm hr hv, ?_, ?_⟩
      · simp [logIfError_trace]
      · simp [Event.listenerClosed]
  · intro r w' conn h hconn
    have hlt : c.cm < w.heap.managers.length := (List.getElem?_eq_some_iff.mp hcm).1
    cases hr : (env.rpcDial w c.rpc remote).2 with
    | some err =>
      rw [Client_Dial_rpc_error env c remote w err hr] at h
      cases h
      cases hconn
    | none =>
      cases hv : Manager.Get cmgr (env.rpcDial w c.rpc remote).1.1 with
      | some v =>
        rw [Client_Dial_taken env c remote w cmgr v hcm hr hv] at h
        cases h
        cases hconn
      | none =>
        rw [Client_Dial_registered env c remote w cmgr hcm hr hv] at h
        cases h
        cases hconn
        exact ⟨_, _, set_get_self _ _ _ hlt, lookup_append_new cmgr _ _ hv⟩
  · intro r w' lis h hlis
    have hlt : c.lm < w.heap.managers.length := (List.getElem?_eq_some_iff.mp hlm).1
    cases hr : (env.rpcListen w c.rpc ⟨n, c.visorPK, port⟩).2 with
    | some err =>
      rw [Client_Listen_rpc_error env c n port w err hr] at h
      cases h
      cases hlis
    | none =>
      cases hv : Manager.Get lmgr (env.rpcListen w c.rpc ⟨n, c.visorPK, port⟩).1 with
      | some v =>
        rw [Client_Listen_taken env c n port w lmgr v hlm hr hv] at h
        cases h
        cases hlis
      | none =>
        rw [Client_Listen_registered env c n port w lmgr hlm hr hv] at h
        cases h
        cases hlis
        exact ⟨_, _, set_get_self _ _ _ (by simp; omega), lookup_append_new lmgr _ _ hv⟩

theorem Client_registration_failure_witness :
    (∃ w' evs, Client.Dial exEnv exClient exAddr exWorldTaken =
        some ((none, some Error.valueAlreadyExists), w') ∧
      w'.trace = exWorldTaken.trace ++ evs ∧ evs.filterMap Event.connClosed = [2]) ∧
    (∃ w' evs, Client.Listen exEnv exClient "dmsg" 25 exWorldTaken =
        some ((none, some Error.valueAlreadyExists), w') ∧
      w'.trace = exWorldTaken.trace ++ evs ∧ evs.filterMap Event.listenerClosed = [1]) := by
  have t := Client_registration_failure exEnv exClient exAddr "dmsg" 25 exWorldTaken
    [(7, Value.conn 0)] [(3, Value.listener 0)] rfl rfl
  exact ⟨t.1 rfl (by decide), t.2.1 rfl (by decide)⟩

/-! ## Theorems: `Listener.Close` and `Client.Close` -/

theorem collectConn_spec (m : Manager) (acc : List Nat) (w : World) :
    (Manager.DoRange collectConnStep m (acc, w)).1 = acc ++ Manager.conns m ∧
    (Manager.DoRange collectConnStep m (acc, w)).2.heap = w.heap ∧
    ∃ logs, (Manager.DoRange collectConnStep m (acc, w)).2.trace = w.trace ++ logs ∧
      ∀ e ∈ logs, e.isLog = true := by
  induction m generalizing acc w with
  | nil => exact ⟨by simp [Manager.DoRange, Manager.conns], rfl, [], by simp [Manager.DoRange]⟩
  | cons e rest ih =>
    obtain ⟨id, v⟩ := e
    cases v with
    | conn ref =>
      obtain ⟨h1, h2, logs, h3, h4⟩ := ih (acc ++ [ref]) w
      refine ⟨?_, ?_, logs, ?_, h4⟩
      · simpa [Manager.DoRange, collectConnStep, AssertConn, Manager.conns] using h1
      · simpa [Manager.DoRange, collectConnStep, AssertConn] using h2
      · simpa [Manager.DoRange, collectConnStep, AssertConn] using h3
    | listener ref =>
      obtain ⟨h1, h2, logs, h3, h4⟩ := ih acc (w.emit (Event.logError Error.wrongValueType))
      refine ⟨?_, ?_, Event.logError Error.wrongValueType :: logs, ?_, ?_⟩
      · simpa [Manager.DoRange, collectConnStep, AssertConn, Manager.conns] using h1
      · simpa [Manager.DoRange, collectConnStep, AssertConn] using h2
      · simpa [Manager.DoRange, collectConnStep, AssertConn] using h3
      · intro e he
        rcases List.mem_cons.mp he with rfl | he
        · rfl
        · exact h4 e he
    | other tag =>
      obtain ⟨h1, h2, logs, h3, h4⟩ := ih acc (w.emit (Event.logError Error.wrongValueType))
      refine ⟨?_, ?_, Event.logError Error.wrongValueType :: logs, ?_, ?_⟩
      · simpa [Manager.DoRange, collectConnStep, AssertConn, Manager.conns] using h1
      · simpa [Manager.DoRange, collectConnStep, AssertConn] using h2
      · simpa [Manager.DoRange, collectConnStep, AssertConn] using h3
      · intro e he
        rcases List.mem_cons.mp he with rfl | he
        · rfl
        · exact h4 e he

theorem collectListener_spec (m : Manager) (acc : List Nat) (w : World) :
    (Manager.DoRange collectListenerStep m (acc, w)).1 = acc ++ Manager.listeners m ∧
    (Manager.DoRange collectListenerStep m (acc, w)).2.heap = w.heap ∧
    ∃ logs, (Manager.DoRange collectListenerStep m (acc, w)).2.trace = w.trace ++ logs ∧
      ∀ e ∈ logs, e.isLog = true := by
  induction m generalizing acc w with
  | nil =>
    exact ⟨by simp [Manager.DoRange, Manager.listeners], rfl, [], by simp [Manager.DoRange]⟩
  | cons e rest ih =>
    obtain ⟨id, v⟩ := e
    cases v with
    | listener ref =>
      obtain ⟨h1, h2, logs, h3, h4⟩ := ih (acc ++ [ref]) w
      refine ⟨?_, ?_, logs, ?_, h4⟩
      · simpa [Manager.DoRange, collectListenerStep, AssertListener, Manager.listeners] using h1
      · simpa [Manager.DoRange, collectListenerStep, AssertListener] using h2
      · simpa [Manager.DoRange, collectListenerStep, AssertListener] using h3
    | conn ref =>
      obtain ⟨h1, h2, logs, h3, h4⟩ := ih acc (w.emit (Event.logError Error.wrongValueType))
      refine ⟨?_, ?_, Event.logError Error.wrongValueType :: logs, ?_, ?_⟩
      · simpa [Manager.DoRange, collectListenerStep, AssertListener, Manager.listeners] using h1
      · simpa [Manager.DoRange, collectListenerStep, AssertListener] using h2
      · simpa [Manager.DoRange, collectListenerStep, AssertListener] using h3
      · intro e he
        rcases List.mem_cons.mp he with rfl | he
        · rfl
        · exact h4 e he
    | other tag =>
      obtain ⟨h1, h2, logs, h3, h4⟩ := ih acc (w.emit (Event.logError Error.wrongValueType))
      refine ⟨?_, ?_, Event.logError Error.wrongValueType :: logs, ?_, ?_⟩
      · simpa [Manager.DoRange, collectListenerStep, AssertListener, Manager.listeners] using h1
      · simpa [Manager.DoRange, collectListenerStep, AssertListener] using h2
      · simpa [Manager.DoRange, collectListenerStep, AssertListener] using h3
      · intro e he
        rcases List.mem_cons.mp he with rfl | he
        · rfl
        · exact h4 e he

/-- The loop over the connections: one `Close` per element, in order, each followed by the
log of its error if it returned one; no listener is closed; objects stay in place. -/
theorem closeConns_spec (env : Env) (conns : List Nat) (w : World) :
    (closeConns env conns w).heap.conns = w.heap.conns ∧
    (closeConns env conns w).heap.listeners = w.heap.listeners ∧
    (closeConns env conns w).heap.managers.length = w.heap.managers.length ∧
    ∃ evs, (closeConns env conns w).trace = w.trace ++ evs ∧
      evs.filterMap Event.connClosed = conns ∧
      evs.filterMap Event.listenerClosed = [] ∧
      ∀ e ∈ evs, e.isLog = true ∨ ∃ c, e = Event.connClose c := by
  induction conns generalizing w with
  | nil => exact ⟨rfl, rfl, rfl, [], by simp [closeConns], rfl, rfl, by simp⟩
  | cons c rest ih =>
    obtain ⟨h1, h2, h3, evs, h4, h5, h6, h7⟩ := ih (logIfError (netConnClose env c w))
    refine ⟨?_, ?_, ?_, Event.connClose c :: (logTail (netConnClose env c w).1 ++ evs),
      ?_, ?_, ?_, ?_⟩
    · simpa [closeConns] using h1
    · simpa [closeConns] using h2
    · simpa [closeConns] using h3
    · simpa [closeConns, logIfError_trace] using h4
    · simp [Event.connClosed, h5]
    · simp [Event.listenerClosed, h6]
    · intro e he
      rcases List.mem_cons.mp he with rfl | he
      · exact Or.inr ⟨c, rfl⟩
      · rcases List.mem_append.mp he with he | he
        · left
          cases hx : (netConnClose env c w).1 with
          | none => simp [hx, logTail] at he
          | some err =>
            simp [hx, logTail] at he
            subst he
            rfl
        · exact h7 e he

/-- The loop over the listeners: one `Close` per element, in order; no connection is closed
by the loop itself; objects stay in place. -/
theorem closeListeners_spec (env : Env) (listeners : List Nat) (w : World) :
    (closeListeners env listeners w).heap.conns = w.heap.conns ∧
    (closeListeners env listeners w).heap.listeners = w.heap.listeners ∧
    (closeListeners env listeners w).heap.managers.length = w.heap.managers.length ∧
    ∃ evs, (closeListeners env listeners w).trace = w.trace ++ evs ∧
      evs.filterMap Event.listenerClosed = listeners ∧
      evs.filterMap Event.connClosed = [] ∧
      ∀ e ∈ evs, e.isLog = true ∨ ∃ l, e = Event.listenerClose l := by
  induction listeners generalizing w with
  | nil => exact ⟨rfl, rfl, rfl, [], by simp [closeListeners], rfl, rfl, by simp⟩
  | cons c rest ih =>
    obtain ⟨h1, h2, h3, evs, h4, h5, h6, h7⟩ := ih (logIfError (netListenerClose env c w))
    refine ⟨?_, ?_, ?_, Event.listenerClose c :: (logTail (netListenerClose env c w).1 ++ evs),
      ?_, ?_, ?_, ?_⟩
    · simpa [closeListeners] using h1
    · simpa [closeListeners] using h2
    · simpa [closeListeners] using h3
    · simpa [closeListeners, logIfError_trace] using h4
    · simp [Event.listenerClosed, h5]
    · simp [Event.connClosed, h6]
    · intro e he
      rcases List.mem_cons.mp he with rfl | he
      · exact Or.inr ⟨c, rfl⟩
      · rcases List.mem_append.mp he with he | he
        · left
          cases hx : (netListenerClose env c w).1 with
          | none => simp [hx, logTail] at he
          | some err =>
            simp [hx, logTail] at he
            subst he
            rfl
        · exact h7 e he

theorem Free_call_managers_congr (f : Free) (h h' : Heap) (e : h.managers = h'.managers) :
    (f.call h).managers = (f.call h').managers := by
  unfold Free.call
  rw [e]
  split <;> simp [*]

theorem getElem?_of_lt {α : Type} (xs : List α) (i : Nat) (h : i < xs.length) :
    ∃ x, xs[i]? = some x := ⟨xs[i], List.getElem?_eq_getElem h⟩

theorem RLock_free (m : RWMutex) (h : m.writer = false) :
    m.RLock = some ⟨m.writer, m.readers + 1⟩ := by
  simp [RWMutex.RLock, h]

theorem RLock_held (m : RWMutex) (h : m.writer = true) : m.RLock = none := by
  simp [RWMutex.RLock, h]

theorem RUnlock_succ (m : RWMutex) : RWMutex.RUnlock ⟨m.writer, m.readers + 1⟩ = some m := by
  simp [RWMutex.RUnlock]

/-- While a writer holds the lock of the listener, `Listener.Close` does not return. -/
theorem Listener_Close_blocks (env : Env) (lref : Nat) (l : Listener) (w : World)
    (hl : w.heap.listeners[lref]? = some l) (hheld : l.freeLisMx.writer = true) :
    Listener.Close env lref w = none := by
  simp only [Listener.Close, hl]
  rw [listenerMx_blocked _ _ _ l (by simpa using hl) (RLock_held _ hheld)]

/-- On the sample client, of the seven states `Client.Listen` passes through, `Listener.Close`
on the new listener returns only in the third (the listener is built, not yet locked, not
yet registered) and in the last (the release closure is set and the lock released): from
`Lock` to `Unlock` it waits. -/
theorem Listener_Close_waits_for_Listen :
    (Client.ListenSteps exEnv exClient "dmsg" 25 exWorld).map
        (fun r => r.2.map (fun s => (Listener.Close exEnv 0 s).isSome)) =
      some [false, false, true, false, false, false, true] := by
  decide

/-- One run of `Listener.Close` on a listener whose lock no writer holds: what it returns,
the events it adds, and what it leaves of the listener. -/
theorem Listener_Close_run (env : Env) (lref : Nat) (l : Listener) (w : World)
    (hl : w.heap.listeners[lref]? = some l) (hcm : l.cm < w.heap.managers.length)
    (hfree : l.freeLisMx.writer = false) :
    ∃ w' snapshot logs closes,
      Listener.Close env lref w = some (env.rpcCloseListener w l.rpc l.id, w') ∧
      (w.heap.release l.freeLis).managers[l.cm]? = some snapshot ∧
      w'.trace = w.trace ++ [Event.rpcCloseListener l.rpc l.id] ++ freeEvents l.freeLis
        ++ logs ++ closes ∧
      (∀ e ∈ logs, e.isLog = true) ∧
      (∀ e ∈ closes, e.isLog = true ∨ ∃ c, e = Event.connClose c) ∧
      closes.filterMap Event.connClosed = Manager.conns snapshot ∧
      w'.heap.managers.length = w.heap.managers.length ∧
      w'.heap.listeners[lref]? = some l := by
  have hlock := listenerMx_eq (w.emit (Event.rpcCloseListener l.rpc l.id)) lref RWMutex.RLock l
    ⟨l.freeLisMx.writer, l.freeLisMx.readers + 1⟩ (by simpa using hl) (RLock_free _ hfree)
  -- the state before the registry is read
  obtain ⟨w3, hw3, hw3m, hw3t, hw3l⟩ : ∃ w3 : World,
      w3 = (match l.freeLis with
        | some f => (((w.emit (Event.rpcCloseListener l.rpc l.id)).modifyListener lref
            (fun x => { x with
              freeLisMx := ⟨l.freeLisMx.writer, l.freeLisMx.readers + 1⟩ })).emit
              (Event.free f)).callFrees [f]
        | none => (w.emit (Event.rpcCloseListener l.rpc l.id)).modifyListener lref
            (fun x => { x with
              freeLisMx := ⟨l.freeLisMx.writer, l.freeLisMx.readers + 1⟩ })) ∧
      w3.heap.managers = (w.heap.release l.freeLis).managers ∧
      w3.trace = w.trace ++ [Event.rpcCloseListener l.rpc l.id] ++ freeEvents l.freeLis ∧
      w3.heap.listeners[lref]? =
        some { l with freeLisMx := ⟨l.freeLisMx.writer, l.freeLisMx.readers + 1⟩ } := by
    refine ⟨_, rfl, ?_, ?_, ?_⟩
    · cases hf : l.freeLis with
      | none => simp [Heap.release]
      | some f =>
        simp only [Heap.release, World.callFrees, List.foldl_cons, List.foldl_nil]
        exact Free_call_managers_congr f _ _ (by simp)
    · cases hf : l.freeLis with
      | none => simp [freeEvents]
      | some f => simp [freeEvents]
    · split <;> simp [hl]
  have hlen : w3.heap.managers.length = w.heap.managers.length := by
    rw [hw3m]
    cases hf : l.freeLis with
    | none => rfl
    | some f => exact Free_call_managers_length f w.heap
  obtain ⟨snapshot, hsnap⟩ := getElem?_of_lt w3.heap.managers l.cm (by omega)
  obtain ⟨c1, c2, logs, c3, c4⟩ := collectConn_spec snapshot [] w3
  obtain ⟨d1, d2, d3, closes, d4, d5, _, d7⟩ :=
    closeConns_spec env (Manager.DoRange collectConnStep snapshot ([], w3)).1
      (Manager.DoRange collectConnStep snapshot ([], w3)).2
  have hunlock := listenerMx_eq
    (closeConns env (Manager.DoRange collectConnStep snapshot ([], w3)).1
      (Manager.DoRange collectConnStep snapshot ([], w3)).2) lref RWMutex.RUnlock
    { l with freeLisMx := ⟨l.freeLisMx.writer, l.freeLisMx.readers + 1⟩ } l.freeLisMx
    (by rw [d2, c2, hw3l]) (RUnlock_succ _)
  refine ⟨(closeConns env (Manager.DoRange collectConnStep snapshot ([], w3)).1
      (Manager.DoRange collectConnStep snapshot ([], w3)).2).modifyListener lref
      (fun x => { x with freeLisMx := l.freeLisMx }),
    snapshot, logs, closes, ?_, ?_, ?_, c4, d7, ?_, ?_, ?_⟩
  · simp only [Listener.Close, hl]
    rw [hlock]
    simp only []
    rw [← hw3, hsnap]
    simp only []
    rw [hunlock]
  · rw [← hw3m]
    exact hsnap
  · rw [modifyListener_trace, d4, c3, hw3t]
  · rw [d5, c1]
    rfl
  · rw [modifyListener_managers, d3, c2, hlen]
  · rw [modifyListener_get_self, d2, c2, hw3l]
    rfl

/-- C3: for every listener in the heap whose manager of connections is in the heap and whose
lock `freeLisMx` no writer holds (no `Listen` is still registering it), `Listener.Close`
returns exactly the result of the control-protocol `CloseListener`, called with the handle of
the listener.  Its events are, in order: that call; the call of the release closure if one is
assigned; logged errors; then, for the manager of connections as it is after the release
closure ran, one `Close` for every connection it holds, in order, with nothing else in
between than logged errors. -/
theorem Listener_Close_spec (env : Env) (lref : Nat) (l : Listener) (w : World)
    (hl : w.heap.listeners[lref]? = some l) (hcm : l.cm < w.heap.managers.length)
    (hfree : l.freeLisMx.writer = false) :
    ∃ w' snapshot logs closes,
      Listener.Close env lref w = some (env.rpcCloseListener w l.rpc l.id, w') ∧
      (w.heap.release l.freeLis).managers[l.cm]? = some snapshot ∧
      w'.trace = w.trace ++ [Event.rpcCloseListener l.rpc l.id] ++ freeEvents l.freeLis
        ++ logs ++ closes ∧
      (∀ e ∈ logs, e.isLog = true) ∧
      (∀ e ∈ closes, e.isLog = true ∨ ∃ c, e = Event.connClose c) ∧
      closes.filterMap Event.connClosed = Manager.conns snapshot := by
  obtain ⟨w', snapshot, logs, closes, h1, h2, h3, h4, h5, h6, _⟩ :=
    Listener_Close_run env lref l w hl hcm hfree
  exact ⟨w', snapshot, logs, closes, h1, h2, h3, h4, h5, h6⟩

theorem Listener_Close_spec_witness :
    ∃ w' closes,
      Listener.Close exEnv 0 exWorldTaken = some (none, w') ∧
      w'.trace = [Event.rpcCloseListener 0 3, Event.free ⟨0, 3⟩] ++ closes ∧
      closes.filterMap Event.connClosed = [1] := by
  obtain ⟨w', snapshot, logs, closes, h1, h2, h3, h4, _, h6⟩ :=
    Listener_Close_spec exEnv 0 exListener exWorldTaken rfl (by decide) rfl
  have hs : snapshot = [(9, Value.conn 1)] := by
    have h2' : some [(9, Value.conn 1)] = some snapshot := h2
    exact (Option.some.inj h2').symm
  subst hs
  refine ⟨w', logs ++ closes, h1, ?_, ?_⟩
  · rw [h3]
    simp [exWorldTaken, exListener, freeEvents]
  · have hl : logs.filterMap Event.connClosed = [] := by
      rw [List.filterMap_eq_nil_iff]
      intro e he
      have := h4 e he
      cases e <;> simp_all [Event.isLog, Event.connClosed]
    rw [List.filterMap_append, hl, h6]
    rfl

/-- C4: for every client whose two managers are in the heap, `Client.Close` returns (it has
no error result) and its events are, in order: logged errors; one `Close` for every listener
held by the manager of listeners at the start of the call, in order, with only logged errors
in between; then one `Close` for every connection held by the manager of connections at the
start of the call, in order, with only logged errors in between.  The errors returned by
these calls are arbitrary. -/
theorem Client_Close_spec (env : Env) (c : Client) (w : World) (lmgr cmgr : Manager)
    (hlm : w.heap.managers[c.lm]? = some lmgr) (hcm : w.heap.managers[c.cm]? = some cmgr) :
    ∃ w' logs lcloses ccloses,
      Client.Close env c w = some w' ∧
      w'.trace = w.trace ++ logs ++ lcloses ++ ccloses ∧
      (∀ e ∈ logs, e.isLog = true) ∧
      (∀ e ∈ lcloses, e.isLog = true ∨ ∃ l, e = Event.listenerClose l) ∧
      lcloses.filterMap Event.listenerClosed = Manager.listeners lmgr ∧
      (∀ e ∈ ccloses, e.isLog = true ∨ ∃ x, e = Event.connClose x) ∧
      ccloses.filterMap Event.connClosed = Manager.conns cmgr := by
  obtain ⟨a1, a2, logs1, a3, a4⟩ := collectListener_spec lmgr [] w
  obtain ⟨b1, b2, logs2, b3, b4⟩ :=
    collectConn_spec cmgr [] (Manager.DoRange collectListenerStep lmgr ([], w)).2
  obtain ⟨_, _, _, lcloses, l4, l5, _, l7⟩ :=
    closeListeners_spec env (Manager.DoRange collectListenerStep lmgr ([], w)).1
      (Manager.DoRange collectConnStep cmgr
        ([], (Manager.DoRange collectListenerStep lmgr ([], w)).2)).2
  obtain ⟨_, _, _, ccloses, c4, c5, _, c7⟩ :=
    closeConns_spec env
      (Manager.DoRange collectConnStep cmgr
        ([], (Manager.DoRange collectListenerStep lmgr ([], w)).2)).1
      (closeListeners env (Manager.DoRange collectListenerStep lmgr ([], w)).1
        (Manager.DoRange collectConnStep cmgr
          ([], (Manager.DoRange collectListenerStep lmgr ([], w)).2)).2)
  refine ⟨closeConns env
      (Manager.DoRange collectConnStep cmgr
        ([], (Manager.DoRange collectListenerStep lmgr ([], w)).2)).1
      (closeListeners env (Manager.DoRange collectListenerStep lmgr ([], w)).1
        (Manager.DoRange collectConnStep cmgr
          ([], (Manager.DoRange collectListenerStep lmgr ([], w)).2)).2),
    logs1 ++ logs2, lcloses, ccloses, ?_, ?_, ?_, l7, ?_, c7, ?_⟩
  · simp only [Client.Close, hlm]
    rw [a2, hcm]
  · rw [c4, l4, b3, a3]
    simp [List.append_assoc]
  · intro e he
    rcases List.mem_append.mp he with he | he
    · exact a4 e he
    · exact b4 e he
  · rw [l5, a1]
    rfl
  · rw [c5, b1]
    rfl

theorem Client_Close_spec_witness :
    ∃ w' logs lcloses ccloses,
      Client.Close exEnv exClient exWorldTaken = some w' ∧
      w'.trace = exWorldTaken.trace ++ logs ++ lcloses ++ ccloses ∧
      (∀ e ∈ logs, e.isLog = true) ∧
      (∀ e ∈ lcloses, e.isLog = true ∨ ∃ l, e = Event.listenerClose l) ∧
      lcloses.filterMap Event.listenerClosed = [0] ∧
      (∀ e ∈ ccloses, e.isLog = true ∨ ∃ x, e = Event.connClose x) ∧
      ccloses.filterMap Event.connClosed = [0] :=
  Client_Close_spec exEnv exClient exWorldTaken [(3, Value.listener 0)] [(7, Value.conn 0)]
    rfl rfl

/-! ## Theorems: `Listener.Close` twice -/

theorem no_closeListenerCall (evs : List Event)
    (h : ∀ e ∈ evs, e.isLog = true ∨ ∃ c, e = Event.connClose c) :
    evs.filterMap Event.closeListenerCall = [] := by
  induction evs with
  | nil => rfl
  | cons e rest ih =>
    have hrest := ih (fun x hx => h x (List.mem_cons_of_mem _ hx))
    rcases h e (List.mem_cons_self _ _) with he | ⟨c, rfl⟩
    · cases e <;> simp_all [Event.isLog, Event.closeListenerCall]
    · simp [Event.closeListenerCall, hrest]

theorem freeEvents_closeListenerCall (f : Option Free) :
    (freeEvents f).filterMap Event.closeListenerCall = [] := by
  cases f <;> rfl

/-- C7, as the code has it: for every listener in the heap whose manager of connections is
in the heap and whose lock `freeLisMx` no writer holds, two calls of `Listener.Close` in a
row both return, issue the control-protocol `CloseListener` twice, once per call and each
time with the handle of the listener, and each call returns the result of its own
`CloseListener`. -/
theorem Listener_Close_twice (env : Env) (lref : Nat) (l : Listener) (w : World)
    (hl : w.heap.listeners[lref]? = some l) (hcm : l.cm < w.heap.managers.length)
    (hfree : l.freeLisMx.writer = false) :
    ∃ w1 w2,
      Listener.Close env lref w = some (env.rpcCloseListener w l.rpc l.id, w1) ∧
      Listener.Close env lref w1 = some (env.rpcCloseListener w1 l.rpc l.id, w2) ∧
      w2.trace.filterMap Event.closeListenerCall =
        w.trace.filterMap Event.closeListenerCall ++ [(l.rpc, l.id), (l.rpc, l.id)] := by
  obtain ⟨w1, _, logs1, closes1, a1, _, a3, a4, a5, _, a7, a8⟩ :=
    Listener_Close_run env lref l w hl hcm hfree
  obtain ⟨w2, _, logs2, closes2, b1, _, b3, b4, b5, _⟩ :=
    Listener_Close_run env lref l w1 a8 (by rw [a7]; exact hcm) hfree
  refine ⟨w1, w2, a1, b1, ?_⟩
  rw [b3, a3]
  simp only [List.filterMap_append, freeEvents_closeListenerCall,
    no_closeListenerCall logs1 (fun e he => Or.inl (a4 e he)),
    no_closeListenerCall logs2 (fun e he => Or.inl (b4 e he)),
    no_closeListenerCall closes1 a5, no_closeListenerCall closes2 b5]
  simp [Event.closeListenerCall]

theorem Listener_Close_twice_witness :
    ∃ w1 w2,
      Listener.Close exEnv 0 exWorldListening =
        some (exEnv.rpcCloseListener exWorldListening 0 3, w1) ∧
      Listener.Close exEnv 0 w1 = some (exEnv.rpcCloseListener w1 0 3, w2) ∧
      w2.trace.filterMap Event.closeListenerCall =
        exWorldListening.trace.filterMap Event.closeListenerCall ++ [(0, 3), (0, 3)] :=
  Listener_Close_twice exEnv 0 exListener exWorldListening rfl (by decide) rfl

/-- C7, as the claim has it, fails: on the sample listener, with a control protocol that
rejects `CloseListener` for a listener closed before, the second `Listener.Close` issues a
second `CloseListener` and returns its error. -/
theorem Listener_Close_twice_counterexample :
    ∃ r1 w1 r2 w2,
      Listener.Close exEnv 0 exWorldListening = some (r1, w1) ∧
      Listener.Close exEnv 0 w1 = some (r2, w2) ∧
      w2.trace.count (Event.rpcCloseListener 0 3) = 2 ∧
      r2 = some (Error.other 1) := by
  refine ⟨none, ⟨⟨[], [{ exListener with freeLisMx := ⟨false, 0⟩ }], [[], [], []]⟩,
    [Event.rpcCloseListener 0 3, Event.free ⟨0, 3⟩]⟩, some (Error.other 1),
    ⟨⟨[], [{ exListener with freeLisMx := ⟨false, 0⟩ }], [[], [], []]⟩,
    [Event.rpcCloseListener 0 3, Event.free ⟨0, 3⟩, Event.rpcCloseListener 0 3,
      Event.free ⟨0, 3⟩]⟩, ?_, ?_, ?_, rfl⟩
  · decide
  · decide
  · decide

/-! ## Theorems: `Server.Close` -/

/-- The routines run to their end when the counter covers them: all are closed, in order,
the counter goes down by their number and none is left waiting. -/
theorem Server_drain_spec (env : ServerEnv) (conns : List Nat) (sw : ServerWorld)
    (hw : sw.waiting = conns) (hd : conns.length ≤ sw.s.done) :
    ∃ sw' evs, Server.drain env conns sw = some sw' ∧
      sw'.s.lis = sw.s.lis ∧ sw'.s.stopCh = sw.s.stopCh ∧
      sw'.s.done = sw.s.done - conns.length ∧ sw'.waiting = [] ∧
      sw'.trace = sw.trace ++ evs ∧ evs.filterMap Event.connClosed = conns ∧
      ∀ e ∈ evs, e.isLog = true ∨ ∃ c, e = Event.connClose c := by
  induction conns generalizing sw with
  | nil => exact ⟨sw, [], rfl, rfl, rfl, rfl, hw, by simp, rfl, by simp⟩
  | cons c rest ih =>
    have hpos : sw.s.done ≠ 0 := by
      simp only [List.length_cons] at hd
      omega
    obtain ⟨sw', evs, h1, h2, h3, h4, h5, h6, h7, h8⟩ := ih
      { s := { sw.s with done := sw.s.done - 1 }, waiting := sw.waiting.erase c,
        trace := sw.trace ++ [Event.connClose c] ++ logTail (env.connClose sw.trace c) }
      (by simp [hw])
      (by simp only [List.length_cons] at hd; simp only []; omega)
    refine ⟨sw', Event.connClose c :: (logTail (env.connClose sw.trace c) ++ evs), ?_, h2, h3,
      ?_, h5, ?_, ?_, ?_⟩
    · simp only [Server.drain, Server.serveConn, hpos, if_false]
      rw [← h1]
      cases env.connClose sw.trace c <;> simp [logTail]
    · rw [h4]
      simp only [List.length_cons]
      omega
    · rw [h6]
      simp [List.append_assoc]
    · simp [Event.connClosed, h7]
    · intro e he
      rcases List.mem_cons.mp he with rfl | he
      · exact Or.inr ⟨c, rfl⟩
      · rcases List.mem_append.mp he with he | he
        · left
          cases hx : env.connClose sw.trace c with
          | none => simp [hx, logTail] at he
          | some err =>
            simp [hx, logTail] at he
            subst he
            rfl
        · exact h8 e he

/-- C8, as the code has it: for every server whose `stopCh` is still open (no `Close`
before) and whose wait group counts its serving routines, `Server.Close` returns, and returns
exactly the error of closing the endpoint (`nil` when no endpoint is bound), whatever that
error is; when it returns `stopCh` is closed, the endpoint was closed first, every serving
routine has closed its connection, once each, the counter is zero and no routine is left. -/
theorem Server_Close_spec (env : ServerEnv) (sw : ServerWorld)
    (hopen : sw.s.stopCh = false) (htracked : sw.s.done = sw.waiting.length) :
    ∃ sw' evs, Server.Close env sw = some (endpointError env sw, sw') ∧
      sw'.s.stopCh = true ∧ sw'.s.done = 0 ∧ sw'.waiting = [] ∧
      sw'.trace = sw.trace ++ endpointEvents sw.s.lis ++ evs ∧
      evs.filterMap Event.connClosed = sw.waiting ∧
      ∀ e ∈ evs, e.isLog = true ∨ ∃ c, e = Event.connClose c := by
  obtain ⟨⟨lis, stopCh, done⟩, waiting, trace⟩ := sw
  simp only at hopen htracked
  subst hopen htracked
  obtain ⟨sw', evs, h1, _, h3, h4, h5, h6, h7, h8⟩ := Server_drain_spec env waiting
    { s := ⟨lis, true, waiting.length⟩, waiting := waiting,
      trace := trace ++ endpointEvents lis } rfl (le_refl _)
  have hdone : sw'.s.done = 0 := by
    rw [h4]
    simp
  refine ⟨sw', evs, ?_, h3, hdone, h5, h6, h7, h8⟩
  unfold Server.Close endpointError
  cases lis with
  | none =>
    simp only [endpointEvents, List.append_nil] at h1
    simp [h1, hdone]
  | some l =>
    simp only [endpointEvents] at h1
    simp [h1, hdone]

theorem Server_Close_spec_witness :
    ∃ sw' evs, Server.Close exServerEnv exServer = some (some (Error.other 2), sw') ∧
      sw'.s.stopCh = true ∧ sw'.s.done = 0 ∧ sw'.waiting = [] ∧
      sw'.trace = exServer.trace ++ endpointEvents exServer.s.lis ++ evs ∧
      evs.filterMap Event.connClosed = [10, 11] ∧
      ∀ e ∈ evs, e.isLog = true ∨ ∃ c, e = Event.connClose c :=
  Server_Close_spec exServerEnv exServer rfl rfl

/-- C8, as the claim has it, fails: on the sample server a first `Close` returns the endpoint
error with every routine drained, and a second `Close` on the server it leaves does not
return (`close` of the closed `stopCh` panics). -/
theorem Server_Close_twice_counterexample :
    ∃ sw1, Server.Close exServerEnv exServer = some (some (Error.other 2), sw1) ∧
      sw1.s.stopCh = true ∧ Server.Close exServerEnv sw1 = none := by
  refine ⟨⟨⟨some 4, true, 0⟩, [],
    [Event.listenerClose 4, Event.connClose 10, Event.connClose 11]⟩, ?_, rfl, ?_⟩
  · decide
  · decide

/-! ## Theorems: the lock of the release closure -/

/-- C6 fails for `Listener.Accept`: on the sample listener, whose control-protocol `Accept`
gives the free handle 9, the call returns the new connection 0, and of the six states it
passes through, the third (after `l.cm.Add`, before `conn.freeConnMx.Lock()`) has the new
connection in the manager of the listener with no release closure and its lock not held. -/
theorem Listener_Accept_exposes :
    (Listener.AcceptSteps exEnv 0 exWorldListening).map
        (fun r => (r.1, r.2.map (fun s => s.connExposed 2 0))) =
      some ((some 0, none), [false, false, true, false, false, false]) := by
  decide

theorem connExposed_no_conn (w : World) (m conn : Nat) (h : w.heap.conns[conn]? = none) :
    w.connExposed m conn = false := by
  unfold World.connExposed
  rw [h]
  split <;> simp_all

theorem connExposed_locked (w : World) (m conn : Nat) (x : Conn)
    (h : w.heap.conns[conn]? = some x) (hx : x.freeConnMx.writer = true) :
    w.connExposed m conn = false := by
  unfold World.connExposed
  rw [h]
  split <;> simp_all

theorem connExposed_assigned (w : World) (m conn : Nat) (x : Conn) (f : Free)
    (h : w.heap.conns[conn]? = some x) (hx : x.freeConn = some f) :
    w.connExposed m conn = false := by
  unfold World.connExposed
  rw [h]
  split <;> simp_all

theorem connExposed_absent (w : World) (m conn : Nat)
    (h : ∀ mgr, w.heap.managers[m]? = some mgr → ∀ e ∈ mgr, e.2 ≠ Value.conn conn) :
    w.connExposed m conn = false := by
  unfold World.connExposed
  split
  · rename_i mgr x hm hc
    have hno : mgr.any (fun e => e.2 == Value.conn conn) = false := by
      rw [List.any_eq_false]
      intro e he
      simpa using h mgr hm e he
    simp [hno]
  · rfl

theorem Free_call_sub (f : Free) (h : Heap) (m : Nat) (mgr' : Manager)
    (hm : (f.call h).managers[m]? = some mgr') :
    ∃ mgr, h.managers[m]? = some mgr ∧ ∀ e ∈ mgr', e ∈ mgr := by
  unfold Free.call at hm
  split at hm
  · exact ⟨mgr', hm, fun e he => he⟩
  · rename_i m0 h0
    simp only [List.getElem?_set] at hm
    by_cases hfm : f.mgr = m
    · subst hfm
      have hlt : f.mgr < h.managers.length := (List.getElem?_eq_some_iff.mp h0).1
      simp only [hlt, if_true, Option.some.injEq] at hm
      subst hm
      exact ⟨m0, h0, fun e he => (List.mem_filter.mp he).1⟩
    · simp only [hfm, if_false] at hm
      exact ⟨mgr', hm, fun e he => he⟩

theorem callFrees_sub (fs : List Free) (w : World) (m : Nat) (mgr' : Manager)
    (hm : (w.callFrees fs).heap.managers[m]? = some mgr') :
    ∃ mgr, w.heap.managers[m]? = some mgr ∧ ∀ e ∈ mgr', e ∈ mgr := by
  obtain ⟨h, tr⟩ := w
  simp only [World.callFrees] at hm
  simp only
  induction fs generalizing h mgr' with
  | nil => exact ⟨mgr', hm, fun e he => he⟩
  | cons f rest ih =>
    obtain ⟨mgr1, h1, s1⟩ := ih mgr' (f.call h) hm
    obtain ⟨mgr0, h0, s0⟩ := Free_call_sub f h m mgr1 h1
    exact ⟨mgr0, h0, fun e he => s0 e (s1 e he)⟩

theorem managerAdd_none (w : World) (m id : Nat) (v : Value)
    (h : w.heap.managers[m]? = none) : w.managerAdd m id v = none := by
  simp [World.managerAdd, h]

/-- Every `Listener.Accept` that registers its connection passes through a state where the
connection is in the manager, has no release closure, and its lock is not held. -/
theorem Listener_Accept_always_exposes (env : Env) (lref : Nat) (l : Listener) (w : World)
    (mgr : Manager) (hl : w.heap.listeners[lref]? = some l)
    (hmgr : w.heap.managers[l.cm]? = some mgr)
    (hr : (env.rpcAccept w l.rpc l.id).2 = none)
    (hg : Manager.Get mgr (env.rpcAccept w l.rpc l.id).1.1 = none) :
    ∃ r states s, Listener.AcceptSteps env lref w = some (r, states) ∧ s ∈ states ∧
      s.connExposed l.cm w.heap.conns.length = true := by
  have hcm : l.cm < w.heap.managers.length := (List.getElem?_eq_some_iff.mp hmgr).1
  simp only [Listener.AcceptSteps, hl, hr]
  simp only [connMx_newConn_at, connMx_setManager, modifyConn_newConn_at, modifyConn_setManager,
    World.managerAdd, newConn_managers, emit_heap, hmgr, hg, Lock_zero, Unlock_locked,
    Option.map_some']
  refine ⟨_, _, ((w.emit (Event.rpcAccept l.rpc l.id)).newConn
        { id := (env.rpcAccept w l.rpc l.id).1.1, rpc := l.rpc, loc := l.addr,
          remote := (env.rpcAccept w l.rpc l.id).1.2, freeConn := none,
          freeConnMx := RWMutex.zero }).setManager l.cm
      (mgr ++ [((env.rpcAccept w l.rpc l.id).1.1, Value.conn w.heap.conns.length)]),
    rfl, ?_, ?_⟩
  · simp
  · simp [World.connExposed, List.getElem?_set, hcm, RWMutex.zero]

/-- The call `Client.Dial` keeps the lock from the construction of the connection until the
release closure is set: in no state it passes through is the new connection in the manager of
connections with no release closure and its lock not held.  The hypothesis says that the
manager holds no pointer to an object that does not exist yet. -/
theorem Client_Dial_never_exposes (env : Env) (c : Client) (remote : Addr) (w : World)
    (hfresh : ∀ mgr, w.heap.managers[c.cm]? = some mgr →
      ∀ e ∈ mgr, e.2 ≠ Value.conn w.heap.conns.length)
    (r : Option Nat × Option Error) (states : List World)
    (h : Client.DialSteps env c remote w = some (r, states)) :
    ∀ s ∈ states, s.connExposed c.cm w.heap.conns.length = false := by
  cases hr : (env.rpcDial w c.rpc remote).2 with
  | some err =>
    simp only [Client.DialSteps, hr] at h
    cases h
    intro s hs
    simp only [List.mem_singleton] at hs
    subst hs
    exact connExposed_no_conn _ _ _ (by simp)
  | none =>
    simp only [Client.DialSteps, hr] at h
    cases hm : w.heap.managers[c.cm]? with
    | none =>
      simp only [connMx_newConn_at, connMx_setManager, modifyConn_newConn_at,
        modifyConn_setManager, World.managerAdd, newConn_managers, emit_heap, hm, Lock_zero,
        Unlock_locked, Option.map_some'] at h
      cases h
    | some mgr =>
      cases hg : Manager.Get mgr (env.rpcDial w c.rpc remote).1.1 with
      | some v =>
        simp only [connMx_newConn_at, connMx_setManager, modifyConn_newConn_at,
          modifyConn_setManager, World.managerAdd, newConn_managers, emit_heap, hm, hg,
          Lock_zero, Unlock_locked, Option.map_some'] at h
        cases h
        intro s hs
        simp only [List.mem_cons, List.mem_singleton, List.not_mem_nil, or_false] at hs
        rcases hs with rfl | rfl | rfl | rfl | rfl | rfl
        · exact connExposed_no_conn _ _ _ (by simp)
        · exact connExposed_absent _ _ _ (by simpa using hfresh)
        · exact connExposed_absent _ _ _ (by simpa using hfresh)
        · exact connExposed_absent _ _ _ (by simpa using hfresh)
        · exact connExposed_absent _ _ _ (by simpa using hfresh)
        · refine connExposed_absent _ _ _ ?_
          intro mgr' hm' e he
          rw [logIfError_heap] at hm'
          obtain ⟨mgr0, h0, s0⟩ := callFrees_sub _ _ _ _ hm'
          simp only [emit_heap, newConn_managers] at h0
          exact hfresh mgr0 h0 e (s0 e he)
      | none =>
        simp only [connMx_newConn_at, connMx_setManager, modifyConn_newConn_at,
          modifyConn_setManager, World.managerAdd, newConn_managers, emit_heap, hm, hg,
          Lock_zero, Unlock_locked, Option.map_some'] at h
        cases h
        intro s hs
        simp only [List.mem_cons, List.mem_singleton, List.not_mem_nil, or_false] at hs
        rcases hs with rfl | rfl | rfl | rfl | rfl | rfl
        · exact connExposed_no_conn _ _ _ (by simp)
        · exact connExposed_absent _ _ _ (by simpa using hfresh)
        · exact connExposed_absent _ _ _ (by simpa using hfresh)
        · exact connExposed_locked _ _ _
            { id := (env.rpcDial w c.rpc remote).1.1, rpc := c.rpc,
              loc := ⟨remote.Net, c.visorPK, (env.rpcDial w c.rpc remote).1.2⟩,
              remote := remote, freeConn := none, freeConnMx := ⟨true, 0⟩ } (by simp) rfl
        · exact connExposed_assigned _ _ _
            { id := (env.rpcDial w c.rpc remote).1.1, rpc := c.rpc,
              loc := ⟨remote.Net, c.visorPK, (env.rpcDial w c.rpc remote).1.2⟩,
              remote := remote, freeConn := some ⟨c.cm, (env.rpcDial w c.rpc remote).1.1⟩,
              freeConnMx := ⟨true, 0⟩ }
            ⟨c.cm, (env.rpcDial w c.rpc remote).1.1⟩ (by simp) rfl
        · exact connExposed_assigned _ _ _
            { id := (env.rpcDial w c.rpc remote).1.1, rpc := c.rpc,
              loc := ⟨remote.Net, c.visorPK, (env.rpcDial w c.rpc remote).1.2⟩,
              remote := remote, freeConn := some ⟨c.cm, (env.rpcDial w c.rpc remote).1.1⟩,
              freeConnMx := RWMutex.zero }
            ⟨c.cm, (env.rpcDial w c.rpc remote).1.1⟩ (by simp) rfl

theorem listenerExposed_no_listener (w : World) (m lis : Nat)
    (h : w.heap.listeners[lis]? = none) : w.listenerExposed m lis = false := by
  unfold World.listenerExposed
  rw [h]
  split <;> simp_all

theorem listenerExposed_locked (w : World) (m lis : Nat) (x : Listener)
    (h : w.heap.listeners[lis]? = some x) (hx : x.freeLisMx.writer = true) :
    w.listenerExposed m lis = false := by
  unfold World.listenerExposed
  rw [h]
  split <;> simp_all

theorem listenerExposed_assigned (w : World) (m lis : Nat) (x : Listener) (f : Free)
    (h : w.heap.listeners[lis]? = some x) (hx : x.freeLis = some f) :
    w.listenerExposed m lis = false := by
  unfold World.listenerExposed
  rw [h]
  split <;> simp_all

theorem listenerExposed_absent (w : World) (m lis : Nat)
    (h : ∀ mgr, w.heap.managers[m]? = some mgr → ∀ e ∈ mgr, e.2 ≠ Value.listener lis) :
    w.listenerExposed m lis = false := by
  unfold World.listenerExposed
  split
  · rename_i mgr x hm hc
    have hno : mgr.any (fun e => e.2 == Value.listener lis) = false := by
      rw [List.any_eq_false]
      intro e he
      simpa using h mgr hm e he
    simp [hno]
  · rfl

/-- The call `Client.Listen` keeps the lock from the construction of the listener until the
release closure is set: in no state it passes through is the new listener in the manager of
listeners with no release closure and its lock not held.  The hypothesis says that the
manager holds no pointer to an object that does not exist yet. -/
theorem Client_Listen_never_exposes (env : Env) (c : Client) (n : String) (port : Nat)
    (w : World) (mgr : Manager) (hm : w.heap.managers[c.lm]? = some mgr)
    (hfresh : ∀ e ∈ mgr, e.2 ≠ Value.listener w.heap.listeners.length)
    (r : Option Nat × Option Error) (states : List World)
    (h : Client.ListenSteps env c n port w = some (r, states)) :
    ∀ s ∈ states, s.listenerExposed c.lm w.heap.listeners.length = false := by
  have hm' := append_get_old _ _ _ [] hm
  have hold : ∀ mgr', (w.heap.managers ++ [[]])[c.lm]? = some mgr' →
      ∀ e ∈ mgr', e.2 ≠ Value.listener w.heap.listeners.length := by
    intro mgr' h' e he
    rw [hm'] at h'
    cases h'
    exact hfresh e he
  cases hr : (env.rpcListen w c.rpc ⟨n, c.visorPK, port⟩).2 with
  | some err =>
    simp only [Client.ListenSteps, hr] at h
    cases h
    intro s hs
    simp only [List.mem_singleton] at hs
    subst hs
    exact listenerExposed_no_listener _ _ _ (by simp)
  | none =>
    simp only [Client.ListenSteps, hr] at h
    cases hg : Manager.Get mgr (env.rpcListen w c.rpc ⟨n, c.visorPK, port⟩).1 with
    | some v =>
      simp only [listenerMx_newListener_at, listenerMx_setManager,
        modifyListener_newListener_at, modifyListener_setManager, World.managerAdd,
        newListener_managers, newManager_managers, newManager_listeners, emit_heap, hm', hg,
        Lock_zero, Unlock_locked, Option.map_some'] at h
      cases h
      intro s hs
      simp only [List.mem_cons, List.mem_singleton, List.not_mem_nil, or_false] at hs
      rcases hs with rfl | rfl | rfl | rfl | rfl | rfl | rfl
      · exact listenerExposed_no_listener _ _ _ (by simp)
      · exact listenerExposed_no_listener _ _ _ (by simp)
      · exact listenerExposed_absent _ _ _ (by simpa using hold)
      · exact listenerExposed_absent _ _ _ (by simpa using hold)
      · exact listenerExposed_absent _ _ _ (by simpa using hold)
      · exact listenerExposed_absent _ _ _ (by simpa using hold)
      · refine listenerExposed_absent _ _ _ ?_
        intro mgr' hm2 e he
        rw [logIfError_heap] at hm2
        obtain ⟨mgr0, h0, s0⟩ := callFrees_sub _ _ _ _ hm2
        simp only [emit_heap, newListener_managers, newManager_managers] at h0
        exact hold mgr0 h0 e (s0 e he)
    | none =>
      simp only [listenerMx_newListener_at, listenerMx_setManager,
        modifyListener_newListener_at, modifyListener_setManager, World.managerAdd,
        newListener_managers, newManager_managers, newManager_listeners, emit_heap, hm', hg,
        Lock_zero, Unlock_locked, Option.map_some'] at h
      cases h
      intro s hs
      simp only [List.mem_cons, List.mem_singleton, List.not_mem_nil, or_false] at hs
      rcases hs with rfl | rfl | rfl | rfl | rfl | rfl | rfl
      · exact listenerExposed_no_listener _ _ _ (by simp)
      · exact listenerExposed_no_listener _ _ _ (by simp)
      · exact listenerExposed_absent _ _ _ (by simpa using hold)
      · exact listenerExposed_absent _ _ _ (by simpa using hold)
      · exact listenerExposed_locked _ _ _
          { id := (env.rpcListen w c.rpc ⟨n, c.visorPK, port⟩).1, rpc := c.rpc,
            addr := ⟨n, c.visorPK, port⟩, cm := w.heap.managers.length, freeLis := none,
            freeLisMx := ⟨true, 0⟩ } (by simp) rfl
      · exact listenerExposed_assigned _ _ _
          { id := (env.rpcListen w c.rpc ⟨n, c.visorPK, port⟩).1, rpc := c.rpc,
            addr := ⟨n, c.visorPK, port⟩, cm := w.heap.managers.length,
            freeLis := some ⟨c.lm, (env.rpcListen w c.rpc ⟨n, c.visorPK, port⟩).1⟩,
            freeLisMx := ⟨true, 0⟩ }
          ⟨c.lm, (env.rpcListen w c.rpc ⟨n, c.visorPK, port⟩).1⟩ (by simp) rfl
      · exact listenerExposed_assigned _ _ _
          { id := (env.rpcListen w c.rpc ⟨n, c.visorPK, port⟩).1, rpc := c.rpc,
            addr := ⟨n, c.visorPK, port⟩, cm := w.heap.managers.length,
            freeLis := some ⟨c.lm, (env.rpcListen w c.rpc ⟨n, c.visorPK, port⟩).1⟩,
            freeLisMx := RWMutex.zero }
          ⟨c.lm, (env.rpcListen w c.rpc ⟨n, c.visorPK, port⟩).1⟩ (by simp) rfl

end Skywire
